import Mathlib

/-!
Verification of the field-extraction core of the job-deadline-tracker bot
(`src/extractor.py`, `src/config.py`).

The Python code works on Unicode strings with the `re` module; we embed
strings as `List Char` and the Python `re` module as a small backtracking regular
expression engine (`RE` / `matR`) with Python semantics: leftmost match,
alternatives tried left to right, greedy and lazy quantifiers realized by
backtracking, `re.IGNORECASE` baked into the transliterated pattern
constants, `re.MULTILINE` as a flag on `$`, exactly one capturing group
per pattern (which is what every pattern in the source has).  `\w`/`\b`
are modelled on ASCII word characters (the job texts the claims are about
are ASCII apart from the Bengali keyword and the taka sign, neither of
which sits at a `\b` in any pattern).

The Ollama model backend and `dateparser.parse` are external effects; the
pipeline is parameterized over them (`Params`), each modelled as a
function that can either raise (`Except.error`) or return a value, which
is exactly the surface the Python code sees.
-/

set_option maxHeartbeats 2000000
set_option maxRecDepth 200000

abbrev Str := List Char

/-- Python `str.isspace` characters used by `\s` / `str.strip` (ASCII part). -/
def isSpaceC (c : Char) : Bool :=
  c = ' ' || c = '\t' || c = '\n' || c = '\r' || c = '\x0b' || c = '\x0c'

/-- Python `\w` (ASCII part): letters, digits, underscore. -/
def isWordC (c : Char) : Bool := c.isAlphanum || c = '_'

/-- Python `str.lower` (ASCII part; identity on other characters, as for the
Bengali letters and the taka sign appearing in the source patterns). -/
def lowerS (s : Str) : Str := s.map Char.toLower

/-- Python `str.strip()`: drop leading and trailing whitespace. -/
def pyStrip (s : Str) : Str :=
  ((s.dropWhile isSpaceC).reverse.dropWhile isSpaceC).reverse

/-- Model of `re.sub` replacing each `\s+` run by a single space.
The boolean records whether we are inside a run (its first space already
emitted). -/
def normWsGo : Bool → Str → Str
  | _, [] => []
  | inWs, c :: rest =>
    if isSpaceC c then
      if inWs then normWsGo true rest else ' ' :: normWsGo true rest
    else c :: normWsGo false rest

def normWs (s : Str) : Str := normWsGo false s

/-- Regular expressions as used by the source patterns.  One `group`
constructor suffices: every pattern in `extractor.py`/`config.py` has
exactly one capturing group (all other parentheses are `(?:...)`,
modelled structurally). -/
inductive RE where
  | eps
  | cls (p : Char → Bool)
  | cat (a b : RE)
  | alt (a b : RE)
  | starG (a : RE)
  | starL (a : RE)
  | group (a : RE)
  | eos (multiline : Bool)
  | wordB

namespace RE

def size : RE → Nat
  | eps => 1
  | cls _ => 1
  | cat a b => a.size + b.size + 1
  | alt a b => a.size + b.size + 1
  | starG a => a.size + 1
  | starL a => a.size + 1
  | group a => a.size + 1
  | eos _ => 1
  | wordB => 1

end RE

/-- Model of `a?` (greedy). -/
def optG (a : RE) : RE := .alt a .eps

/-- Model of `a+` (greedy). -/
def plusG (a : RE) : RE := .cat a (.starG a)

/-- Model of `a+?` (lazy). -/
def plusL (a : RE) : RE := .cat a (.starL a)

/-- Model of `a{0,n}` (greedy: longer first). -/
def uptoG : Nat → RE → RE
  | 0, _ => .eps
  | n + 1, a => .alt (.cat a (uptoG n a)) .eps

/-- A single literal character under `re.IGNORECASE`. -/
def ciChar (c : Char) : RE := .cls (fun x => x.toLower = c.toLower)

/-- A literal string under `re.IGNORECASE`. -/
def ciStr (s : String) : RE := s.data.foldr (fun c r => .cat (ciChar c) r) .eps

/-- Ordered alternation of case-insensitive literals (Python `a|b|c`,
tried left to right). -/
def ciAlt (ss : List String) : RE :=
  match ss with
  | [] => .cls (fun _ => false)
  | [s] => ciStr s
  | s :: rest => .alt (ciStr s) (ciAlt rest)

def isWordO : Option Char → Bool
  | none => false
  | some c => isWordC c

/-- The backtracking matcher.  `prev` is the character just before the
current position (for `\b`), `cap` the capture recorded so far, `k` the
continuation receiving the new `prev`, the remaining input and the
capture.  Alternatives and quantifier choices are explored in the Python
order (`<|>` takes the first success).  The fuel only bounds recursion
depth; callers pass enough for any match over the given input. -/
def matR {α : Type} : Nat → RE → Option Char → Str → Option Str →
    (Option Char → Str → Option Str → Option α) → Option α
  | 0, _, _, _, _, _ => none
  | fuel + 1, re, prev, s, cap, k =>
    match re with
    | .eps => k prev s cap
    | .cls p =>
      match s with
      | [] => none
      | c :: rest => if p c then k (some c) rest cap else none
    | .cat a b => matR fuel a prev s cap (fun p' s' c' => matR fuel b p' s' c' k)
    | .alt a b => (matR fuel a prev s cap k) <|> (matR fuel b prev s cap k)
    | .starG a =>
      (matR fuel a prev s cap (fun p' s' c' =>
        if s'.length < s.length then matR fuel (.starG a) p' s' c' k else none))
      <|> k prev s cap
    | .starL a =>
      (k prev s cap)
      <|> (matR fuel a prev s cap (fun p' s' c' =>
        if s'.length < s.length then matR fuel (.starL a) p' s' c' k else none))
    | .group a =>
      matR fuel a prev s cap (fun p' s' _ =>
        k p' s' (some (s.take (s.length - s'.length))))
    | .eos ml =>
      if s.isEmpty || (ml && s.head? = some '\n') then k prev s cap else none
    | .wordB =>
      if isWordO prev != isWordO s.head? then k prev s cap else none

/-- Fuel ample for any backtracking path of `re` over `s`. -/
def bigFuel (re : RE) (s : Str) : Nat := (re.size + 4) * (s.length + 4)

/-- Model of `re.search(pattern, s)` returning `match.group(1)`: try each start
position left to right. -/
def searchCapAux : Nat → RE → Option Char → Str → Option Str
  | 0, _, _, _ => none
  | fuel + 1, re, prev, s =>
    match matR (bigFuel re s) re prev s none (fun _ _ cap => some (cap.getD [])) with
    | some t => some t
    | none =>
      match s with
      | [] => none
      | c :: rest => searchCapAux fuel re (some c) rest

def searchCap (re : RE) (s : Str) : Option Str :=
  searchCapAux (s.length + 1) re none s

/-- Model of `re.search(pattern, s) is not None`. -/
def searchBool (re : RE) (s : Str) : Bool := (searchCap re s).isSome

/-- Start index of the leftmost match, if any (used for the
delete-to-end `re.sub` calls in the location cleanup). -/
def searchStartAux : Nat → RE → Option Char → Str → Nat → Option Nat
  | 0, _, _, _, _ => none
  | fuel + 1, re, prev, s, idx =>
    match matR (bigFuel re s) re prev s none (fun _ _ _ => some ()) with
    | some _ => some idx
    | none =>
      match s with
      | [] => none
      | c :: rest => searchStartAux fuel re (some c) rest (idx + 1)

/-- Model of the delete-to-end `re.sub` calls (pattern ending in `.*$`,
replacement empty) for a pattern whose match always runs to the end of
the string: delete from the leftmost match start. -/
def deleteFromMatch (re : RE) (s : Str) : Str :=
  match searchStartAux (s.length + 1) re none s 0 with
  | some i => s.take i
  | none => s

/-- Model of `re.findall(pattern, s)` for a single-group pattern: list of group-1
captures of the non-overlapping leftmost matches; scanning resumes at each
match end (one past it for a zero-width match), as in Python. -/
def findallAux : Nat → RE → Option Char → Str → List Str
  | 0, _, _, _ => []
  | fuel + 1, re, prev, s =>
    match matR (bigFuel re s) re prev s none
        (fun p' rest cap => some (cap.getD [], p', rest)) with
    | some (t, p', rest) =>
      if rest.length < s.length then t :: findallAux fuel re p' rest
      else
        match s with
        | [] => [t]
        | c :: cs => t :: findallAux fuel re (some c) cs
    | none =>
      match s with
      | [] => []
      | c :: cs => findallAux fuel re (some c) cs

def findallCaps (re : RE) (s : Str) : List Str :=
  findallAux (s.length + 1) re none s

/-! ## Character classes of the source patterns -/

/-- Model of `[A-Z]` under `re.IGNORECASE`: any ASCII letter. -/
def clsAlphaCI : RE := .cls Char.isAlpha

/-- Model of `[a-z]` under `re.IGNORECASE`: any ASCII letter. -/
def clsLowerCI : RE := .cls Char.isAlpha

/-- Model of `[A-Za-z\s&.,()]` (company candidate body). -/
def clsCompanyBody : RE :=
  .cls (fun c => c.isAlpha || isSpaceC c || c = '&' || c = '.' || c = ',' || c = '(' || c = ')')

/-- Model of `[A-Za-z\s\-–&/(),]` (position candidate body). -/
def clsPositionBody : RE :=
  .cls (fun c => c.isAlpha || isSpaceC c || c = '-' || c = '–' || c = '&' || c = '/' ||
    c = '(' || c = ')' || c = ',')

/-- Model of `[^\n]`. -/
def clsNotNL : RE := .cls (fun c => c ≠ '\n')

/-- Model of `.` without `re.DOTALL`. -/
def clsDot : RE := .cls (fun c => c ≠ '\n')

/-- Model of `.` with `re.DOTALL`. -/
def clsDotAll : RE := .cls (fun _ => true)

/-- Model of `\s`. -/
def clsWs : RE := .cls isSpaceC

/-- Model of `\d`. -/
def clsDigit : RE := .cls Char.isDigit

/-- Model of `[\d,]`. -/
def clsDigitComma : RE := .cls (fun c => c.isDigit || c = ',')

/-- Model of `[A-Za-z\s,#\-()0-9]` (location context body). -/
def clsLocCtx : RE :=
  .cls (fun c => c.isAlpha || isSpaceC c || c.isDigit || c = ',' || c = '#' || c = '-' ||
    c = '(' || c = ')')

/-- Model of `[-–to]` under `re.IGNORECASE` (range separator characters). -/
def clsRangeSep : RE := .cls (fun c => c = '-' || c = '–' || c.toLower = 't' || c.toLower = 'o')

/-- Model of `[:\s]`. -/
def clsColonWs : RE := .cls (fun c => c = ':' || isSpaceC c)

/-- Model of `[\/\-\.]` (date separators). -/
def clsDateSep : RE := .cls (fun c => c = '/' || c = '-' || c = '.')

/-- Model of `\w`. -/
def clsWord : RE := .cls isWordC

/-- Model of `\n` literal. -/
def clsNL : RE := .cls (fun c => c = '\n')

def litC (c : Char) : RE := .cls (fun x => x = c)

/-! ## Company patterns (`extract_company_regex`, flags `re.IGNORECASE | re.MULTILINE`) -/

/-- Common capture body `[A-Z][A-Za-z\s&.,()]+?`. -/
def companyCore : RE := .cat clsAlphaCI (plusL clsCompanyBody)

/-- Model of `(?:Ltd|Limited|Inc|Corporation|Group|International|Bangladesh)` (order as in source). -/
def coSuffixA : RE := ciAlt ["Ltd", "Limited", "Inc", "Corporation", "Group", "International", "Bangladesh"]

/-- Model of `(?:Ltd|Limited|Inc|Corporation|Group|International)`. -/
def coSuffixB : RE := ciAlt ["Ltd", "Limited", "Inc", "Corporation", "Group", "International"]

/-- Model of `(?:Limited|Ltd|Inc|Corporation|Group|International|Bangladesh)`. -/
def coSuffixC : RE := ciAlt ["Limited", "Ltd", "Inc", "Corporation", "Group", "International", "Bangladesh"]

/-- Model of `Company:\s*([A-Z][A-Za-z\s&.,()]+?)(?:\n|is|hiring|looking|Job|$)` -/
def coPat1 : RE :=
  .cat (ciStr "Company:") (.cat (.starG clsWs) (.cat (.group companyCore)
    (.alt clsNL (.alt (ciStr "is") (.alt (ciStr "hiring") (.alt (ciStr "looking")
      (.alt (ciStr "Job") (.eos true))))))))

/-- Model of `Organization:\s*([A-Z][A-Za-z\s&.,()]+?)(?:\n|is|Job|$)` -/
def coPat2 : RE :=
  .cat (ciStr "Organization:") (.cat (.starG clsWs) (.cat (.group companyCore)
    (.alt clsNL (.alt (ciStr "is") (.alt (ciStr "Job") (.eos true))))))

/-- Model of `About\s+(?:Us\s+)?([A-Z][A-Za-z\s&.,()]+?(?:Ltd|Limited|Inc|Corporation|Group|International|Bangladesh))(?:\n|is|Job|$)` -/
def coPat3 : RE :=
  .cat (ciStr "About") (.cat (plusG clsWs)
    (.cat (optG (.cat (ciStr "Us") (plusG clsWs)))
      (.cat (.group (.cat clsAlphaCI (.cat (plusL clsCompanyBody) coSuffixA)))
        (.alt clsNL (.alt (ciStr "is") (.alt (ciStr "Job") (.eos true)))))))

/-- Model of `([A-Z][A-Za-z\s&.,()]+?(?:Ltd|Limited|Inc|Corporation|Group|International))\s+is\s+(?:hiring|looking|seeking)` -/
def coPat4 : RE :=
  .cat (.group (.cat clsAlphaCI (.cat (plusL clsCompanyBody) coSuffixB)))
    (.cat (plusG clsWs) (.cat (ciStr "is") (.cat (plusG clsWs)
      (ciAlt ["hiring", "looking", "seeking"]))))

/-- Model of `Join\s+(?:our team at\s+)?([A-Z][A-Za-z\s&.,()]+?(?:Ltd|Limited|Inc|Corporation|Group|International|Bangladesh))(?:\n|!|\.|$)` -/
def coPat5 : RE :=
  .cat (ciStr "Join") (.cat (plusG clsWs)
    (.cat (optG (.cat (ciStr "our team at") (plusG clsWs)))
      (.cat (.group (.cat clsAlphaCI (.cat (plusL clsCompanyBody) coSuffixA)))
        (.alt clsNL (.alt (litC '!') (.alt (litC '.') (.eos true)))))))

/-- Model of `([A-Z][A-Za-z\s&.,()]+?(?:Limited|Ltd|Inc|Corporation|Group|International|Bangladesh))\s*(?:\n|is|hiring|$)` -/
def coPat6 : RE :=
  .cat (.group (.cat clsAlphaCI (.cat (plusL clsCompanyBody) coSuffixC)))
    (.cat (.starG clsWs)
      (.alt clsNL (.alt (ciStr "is") (.alt (ciStr "hiring") (.eos true)))))

def companyPatterns : List RE := [coPat1, coPat2, coPat3, coPat4, coPat5, coPat6]

/-! ## Position patterns (`extract_position_regex`, flags `re.IGNORECASE | re.MULTILINE`) -/

/-- Common capture body `[A-Z][A-Za-z\s\-–&/(),]+?`. -/
def positionCore : RE := .cat clsAlphaCI (plusL clsPositionBody)

/-- Model of `(?:\n|Job|Employment|Work|$)` -/
def posTermA : RE :=
  .alt clsNL (.alt (ciStr "Job") (.alt (ciStr "Employment") (.alt (ciStr "Work") (.eos true))))

/-- Model of `Position:\s*([A-Z][A-Za-z\s\-–&/(),]+?)(?:\n|Job|Employment|Work|$)` -/
def posPat1 : RE :=
  .cat (ciStr "Position:") (.cat (.starG clsWs) (.cat (.group positionCore) posTermA))

/-- Model of `Job Title:\s*(...)(?:\n|Job|Employment|Work|$)` -/
def posPat2 : RE :=
  .cat (ciStr "Job Title:") (.cat (.starG clsWs) (.cat (.group positionCore) posTermA))

/-- Model of `Role:\s*(...)(?:\n|Job|Employment|Work|$)` -/
def posPat3 : RE :=
  .cat (ciStr "Role:") (.cat (.starG clsWs) (.cat (.group positionCore) posTermA))

/-- Model of `Hiring for:\s*(...)(?:\n|Job|to|$)` -/
def posPat4 : RE :=
  .cat (ciStr "Hiring for:") (.cat (.starG clsWs) (.cat (.group positionCore)
    (.alt clsNL (.alt (ciStr "Job") (.alt (ciStr "to") (.eos true))))))

/-- Model of `Vacancy:\s*(...)(?:\n|Job|Employment|$)` -/
def posPat5 : RE :=
  .cat (ciStr "Vacancy:") (.cat (.starG clsWs) (.cat (.group positionCore)
    (.alt clsNL (.alt (ciStr "Job") (.alt (ciStr "Employment") (.eos true))))))

/-- Model of `is looking for\s+(...)(?:\n|Job|to|$)` -/
def posPat6 : RE :=
  .cat (ciStr "is looking for") (.cat (plusG clsWs) (.cat (.group positionCore)
    (.alt clsNL (.alt (ciStr "Job") (.alt (ciStr "to") (.eos true))))))

/-- Model of `looking for\s+(?:a|an)\s+(...)(?:\n|to|with|who|$)` -/
def posPat7 : RE :=
  .cat (ciStr "looking for") (.cat (plusG clsWs)
    (.cat (ciAlt ["a", "an"]) (.cat (plusG clsWs) (.cat (.group positionCore)
      (.alt clsNL (.alt (ciStr "to") (.alt (ciStr "with") (.alt (ciStr "who") (.eos true)))))))))

def positionPatterns : List RE :=
  [posPat1, posPat2, posPat3, posPat4, posPat5, posPat6, posPat7]

/-! ## Location patterns (`extract_location_regex`) -/

/-- Model of `BANGLADESH_CITIES` joined by `|`, in source order. -/
def citiesAlt : RE :=
  ciAlt ["Dhaka", "Chittagong", "Sylhet", "Khulna", "Rajshahi", "Rangpur", "Barisal",
    "Mymensingh", "Gazipur", "Narayanganj"]

/-- Model of `(?:Location|Job Location|Workplace|Office|Work Location):` -/
def locLabel : RE :=
  .cat (ciAlt ["Location", "Job Location", "Workplace", "Office", "Work Location"]) (litC ':')

/-- Model of `(?:Location|...):\s*([^\n]+)(?:\n\n|\n[A-Z]|$)` (flags `I | M`). -/
def locPat1 : RE :=
  .cat locLabel (.cat (.starG clsWs) (.cat (.group (plusG clsNotNL))
    (.alt (.cat clsNL clsNL) (.alt (.cat clsNL clsAlphaCI) (.eos true)))))

/-- Model of `(?:Location|...):\s*(.+?)(?:\n|$)` (flags `I | M`). -/
def locPat2 : RE :=
  .cat locLabel (.cat (.starG clsWs) (.cat (.group (plusL clsDot))
    (.alt clsNL (.eos true))))

/-- Model of `([A-Za-z\s,#\-()0-9]{0,100}(?:<cities>)[A-Za-z\s,#\-()0-9]*)` (flag `I`). -/
def locCtxPat : RE :=
  .group (.cat (uptoG 100 clsLocCtx) (.cat citiesAlt (.starG clsLocCtx)))

/-- Model of `((?:<cities>)(?:\s*\d+)?)` (flag `I`). -/
def locCityPat : RE :=
  .group (.cat citiesAlt (optG (.cat (.starG clsWs) (plusG clsDigit))))

/-- Model of `((?:Gulshan|Banani|Dhanmondi|Niketon|Motijheel|Kawran Bazar|Mohakhali|Uttara|Mirpur|Badda|Rampura|Tejgaon|Farmgate|Khilgaon|Bandaree)(?:\s*\d+)?(?:,\s*Dhaka)?)` (flag `I`). -/
def locAreaPat : RE :=
  .group (.cat
    (ciAlt ["Gulshan", "Banani", "Dhanmondi", "Niketon", "Motijheel", "Kawran Bazar",
      "Mohakhali", "Uttara", "Mirpur", "Badda", "Rampura", "Tejgaon", "Farmgate",
      "Khilgaon", "Bandaree"])
    (.cat (optG (.cat (.starG clsWs) (plusG clsDigit)))
      (optG (.cat (litC ',') (.cat (.starG clsWs) (ciStr "Dhaka"))))))

/-- Model of `\b(remote|work from home|wfh)\b` (flag `I`). -/
def locRemotePat : RE :=
  .cat .wordB (.cat (.group (ciAlt ["remote", "work from home", "wfh"])) .wordB)

/-- Model of the `\s*\|.*$` deletion sub of the location cleanup (the
tail `.*$` always reaches the end of the newline-free strings this
cleanup is applied to). -/
def pipeTailPat : RE :=
  .cat (.starG clsWs) (.cat (litC '|') (.cat (.starG clsDot) (.eos false)))

/-- Model of `\s*\b(Job|Employment|Salary|Deadline)\s*:.*$` (flag `I`). -/
def fieldTailPat : RE :=
  .cat (.starG clsWs) (.cat .wordB (.cat (.group (ciAlt ["Job", "Employment", "Salary", "Deadline"]))
    (.cat (.starG clsWs) (.cat (litC ':') (.cat (.starG clsDot) (.eos false))))))

/-- Model of `^(?:at|in|from)\s+` (flag `I`; the caret without `M`
anchors at the string start, so the empty-replacement sub deletes at
most one leading preposition). -/
def leadPrepPat : RE := .cat (ciAlt ["at", "in", "from"]) (plusG clsWs)

def stripLeadPrep (s : Str) : Str :=
  match matR (bigFuel leadPrepPat s) leadPrepPat none s none
      (fun _ rest _ => some rest) with
  | some r => r
  | none => s

/-! ## Salary patterns (`extract_salary_regex`) -/

/-- Model of `(?:Salary|Compensation|Monthly Salary|Package|Pay):` -/
def salLabel : RE :=
  .cat (ciAlt ["Salary", "Compensation", "Monthly Salary", "Package", "Pay"]) (litC ':')

/-- Model of `(?:Salary|Compensation|Monthly Salary|Package|Pay):\s*([^\n]+?)(?:\n\n|\n[A-Z]|$)` (flags `I | M`). -/
def salPat1 : RE :=
  .cat salLabel (.cat (.starG clsWs) (.cat (.group (plusL clsNotNL))
    (.alt (.cat clsNL clsNL) (.alt (.cat clsNL clsAlphaCI) (.eos true)))))

/-- Model of `(?:Tk\.?|৳|BDT|USD|\$)` -/
def currency : RE :=
  .alt (.cat (ciStr "Tk") (optG (litC '.')))
    (.alt (ciStr "৳") (.alt (ciStr "BDT") (.alt (ciStr "USD") (ciStr "$"))))

/-- Model of `(?:BDT|Tk|৳|USD|\$)` (trailing currency of the currency-first range). -/
def currencyTrail : RE :=
  ciAlt ["BDT", "Tk", "৳", "USD", "$"]

/-- Model of `(?:BDT|Tk\.?|৳|USD|\$)` (currency of the amount-first patterns). -/
def currencyAmt : RE :=
  .alt (ciStr "BDT") (.alt (.cat (ciStr "Tk") (optG (litC '.')))
    (.alt (ciStr "৳") (.alt (ciStr "USD") (ciStr "$"))))

/-- Model of `(?:per month|monthly|/month|\(Monthly\)|\(Negotiable\))` -/
def salSuffix : RE :=
  ciAlt ["per month", "monthly", "/month", "(Monthly)", "(Negotiable)"]

/-- Model of `[\d,]+(?:k|K)?` -/
def amountK : RE := .cat (plusG clsDigitComma) (optG (ciChar 'k'))

/-- Model of `((?:Tk\.?|৳|BDT|USD|\$)\s*[\d,]+(?:k|K)?\s*(?:[-–to]+)\s*[\d,]+(?:k|K)?(?:\s*(?:BDT|Tk|৳|USD|\$))?(?:\s*(?:per month|monthly|/month|\(Monthly\)|\(Negotiable\)))?)` (flag `I`). -/
def salPat2a : RE :=
  .group (.cat currency (.cat (.starG clsWs) (.cat amountK (.cat (.starG clsWs)
    (.cat (plusG clsRangeSep) (.cat (.starG clsWs) (.cat amountK
      (.cat (optG (.cat (.starG clsWs) currencyTrail))
        (optG (.cat (.starG clsWs) salSuffix))))))))))

/-- Model of `((?:Tk\.?|৳|BDT|USD|\$)\s*[\d,]+(?:k|K)?(?:\+)?(?:\s*(?:per month|monthly|/month|\(Monthly\)|\(Negotiable\)))?)` (flag `I`). -/
def salPat2b : RE :=
  .group (.cat currency (.cat (.starG clsWs) (.cat amountK
    (.cat (optG (litC '+')) (optG (.cat (.starG clsWs) salSuffix))))))

/-- Model of `([\d,]+(?:k|K)?\s*(?:[-–to]+)\s*[\d,]+(?:k|K)?\s*(?:BDT|Tk\.?|৳|USD|\$)(?:\s*(?:per month|monthly|/month|\(Monthly\)|\(Negotiable\)))?)` (flag `I`). -/
def salPat3a : RE :=
  .group (.cat amountK (.cat (.starG clsWs) (.cat (plusG clsRangeSep)
    (.cat (.starG clsWs) (.cat amountK (.cat (.starG clsWs)
      (.cat currencyAmt (optG (.cat (.starG clsWs) salSuffix)))))))))

/-- Model of `([\d,]+(?:k|K)?(?:\+)?\s*(?:BDT|Tk\.?|৳|USD|\$)(?:\s*(?:per month|monthly|/month|\(Monthly\)|\(Negotiable\)))?)` (flag `I`). -/
def salPat3b : RE :=
  .group (.cat amountK (.cat (optG (litC '+')) (.cat (.starG clsWs)
    (.cat currencyAmt (optG (.cat (.starG clsWs) salSuffix))))))

/-- Model of `(?:Salary|Compensation|Pay)(?:[:\s]+).*?([\d,]+\s*(?:[-–to]+)\s*[\d,]+(?:\s*\((?:Monthly|Negotiable|Per Month)\))?)` (flags `I | DOTALL`). -/
def salPat4 : RE :=
  .cat (ciAlt ["Salary", "Compensation", "Pay"]) (.cat (plusG clsColonWs)
    (.cat (.starL clsDotAll)
      (.group (.cat (plusG clsDigitComma) (.cat (.starG clsWs)
        (.cat (plusG clsRangeSep) (.cat (.starG clsWs) (.cat (plusG clsDigitComma)
          (optG (.cat (.starG clsWs) (.cat (litC '(')
            (.cat (ciAlt ["Monthly", "Negotiable", "Per Month"]) (litC ')')))))))))))))

/-- Model of `(?:Salary|Compensation)[:\s]+(Negotiable|As per company policy|Competitive)` (flag `I`). -/
def salPat5 : RE :=
  .cat (ciAlt ["Salary", "Compensation"]) (.cat (plusG clsColonWs)
    (.group (ciAlt ["Negotiable", "As per company policy", "Competitive"])))

/-- Model of `(?:\d{2,3}[,]\d{3}|\d{2,3}k)` -/
def saAmount : RE :=
  .alt (.cat clsDigit (.cat clsDigit (.cat (uptoG 1 clsDigit)
    (.cat (litC ',') (.cat clsDigit (.cat clsDigit clsDigit))))))
    (.cat clsDigit (.cat clsDigit (.cat (uptoG 1 clsDigit) (ciChar 'k'))))

/-- Model of `\b((?:\d{2,3}[,]\d{3}|\d{2,3}k)\s*[-–to]+\s*(?:\d{2,3}[,]\d{3}|\d{2,3}k))\b` (flag `I`). -/
def salPat6 : RE :=
  .cat .wordB (.cat (.group (.cat saAmount (.cat (.starG clsWs)
    (.cat (plusG clsRangeSep) (.cat (.starG clsWs) saAmount))))) .wordB)

/-- Model of `\d|negotiable` (flag `I`): the labeled-branch validation search. -/
def digitOrNegPat : RE := .alt clsDigit (ciStr "negotiable")

/-- Model of `\d` validation search. -/
def digitPat : RE := clsDigit

/-- Model of `\d{2,}` validation search. -/
def digit2Pat : RE := .cat clsDigit (plusG clsDigit)

/-! ## Deadline patterns (`config.DATE_PATTERNS`, searched with `re.findall`
over the lowercased text, flag `I`) -/

/-- Model of `\d{1,2}` -/
def d12 : RE := .cat clsDigit (uptoG 1 clsDigit)

/-- Model of `\d{2,4}` -/
def d24 : RE := .cat clsDigit (.cat clsDigit (uptoG 2 clsDigit))

/-- Model of `\d{4}` -/
def d4 : RE := .cat clsDigit (.cat clsDigit (.cat clsDigit clsDigit))

/-- Model of `(\d{1,2}[\/\-\.]\d{1,2}[\/\-\.]\d{2,4})` -/
def numDate : RE :=
  .group (.cat d12 (.cat clsDateSep (.cat d12 (.cat clsDateSep d24))))

/-- Model of `(\d{1,2}\s+\w+\s+\d{4})` -/
def dayMonDate : RE :=
  .group (.cat d12 (.cat (plusG clsWs) (.cat (plusG clsWord) (.cat (plusG clsWs) d4))))

/-- Model of `(\w+\s+\d{1,2},?\s+\d{4})` -/
def monDayDate : RE :=
  .group (.cat (plusG clsWord) (.cat (plusG clsWs) (.cat d12 (.cat (optG (litC ','))
    (.cat (plusG clsWs) d4)))))

/-- Model of `config.DATE_PATTERNS`, in source order. -/
def DATE_PATTERNS : List RE :=
  [ .cat (ciStr "deadline") (.cat (plusG clsColonWs) numDate)
  , .cat (ciStr "apply") (.cat (plusG clsWs) (.cat (ciStr "by") (.cat (plusG clsColonWs) dayMonDate)))
  , .cat (ciStr "apply") (.cat (plusG clsWs) (.cat (ciStr "by") (.cat (plusG clsColonWs) monDayDate)))
  , .cat (ciStr "last") (.cat (plusG clsWs) (.cat (ciStr "date") (.cat (plusG clsColonWs) numDate)))
  , .cat (ciStr "application") (.cat (plusG clsWs) (.cat (ciStr "deadline") (.cat (plusG clsColonWs) numDate)))
  , .cat (ciStr "applications") (.cat (plusG clsWs) (.cat (ciStr "close") (.cat (plusG clsWs) (.cat (ciStr "on") (.cat (plusG clsColonWs) dayMonDate)))))
  , .cat (ciStr "close") (.cat (plusG clsWs) (.cat (ciStr "date") (.cat (plusG clsColonWs) numDate)))
  , .cat (ciStr "শেষ") (.cat (plusG clsWs) (.cat (ciStr "তারিখ") (.cat (plusG clsColonWs) numDate)))
  , .cat (ciStr "due") (.cat (plusG clsWs) (.cat (ciStr "date") (.cat (plusG clsColonWs) numDate)))
  , .cat (ciStr "expires") (.cat (plusG clsColonWs) numDate)
  , .cat (ciStr "valid") (.cat (plusG clsWs) (.cat (ciStr "till") (.cat (plusG clsColonWs) numDate)))
  ]

/-- The months alternation `(?:jan|feb|mar|apr|may|jun|jul|aug|sep|oct|nov|dec)`. -/
def monthsAlt : RE :=
  ciAlt ["jan", "feb", "mar", "apr", "may", "jun", "jul", "aug", "sep", "oct", "nov", "dec"]

/-- Model of `date_only_patterns` of `extract_deadline_regex`, in source order. -/
def dateOnlyPatterns : List RE :=
  [ .cat .wordB (.cat numDate .wordB)
  , .cat .wordB (.cat (.group (.cat d12 (.cat (plusG clsWs) (.cat monthsAlt
      (.cat (.starG clsLowerCI) (.cat (plusG clsWs) d4)))))) .wordB)
  , .cat .wordB (.cat (.group (.cat monthsAlt (.cat (.starG clsLowerCI)
      (.cat (plusG clsWs) (.cat d12 (.cat (optG (litC ','))
        (.cat (plusG clsWs) d4))))))) .wordB)
  ]

/-! ## Dates and the `dateparser` model -/

/-- A calendar date in the configured timezone (`config.TIMEZONE`,
`Asia/Dhaka`); the pipeline only ever constructs and compares
timezone-aware instants in this single zone, so the zone is left
implicit and times-of-day (always midnight for parsed dates) are
dropped. -/
structure Date where
  year : Nat
  month : Nat
  day : Nat
deriving DecidableEq

/-- Python `datetime` comparison, restricted to the calendar date. -/
def dateLtB (a b : Date) : Bool :=
  a.year < b.year ||
    (a.year = b.year && (a.month < b.month || (a.month = b.month && a.day < b.day)))

/-- Maximal runs of characters not satisfying `p` (empty runs dropped). -/
def splitOnP (p : Char → Bool) : Str → List Str
  | [] => []
  | c :: rest =>
    if p c then splitOnP p rest
    else
      match splitOnP p rest with
      | [] => [[c]]
      | t :: ts =>
        match rest with
        | [] => [[c]]
        | c' :: _ => if p c' then [c] :: t :: ts else (c :: t) :: ts

def allDigits (s : Str) : Bool := !s.isEmpty && s.all Char.isDigit

def natOf (s : Str) : Nat := s.foldl (fun n c => n * 10 + (c.toNat - 48)) 0

/-- Two-digit years are mapped into 2000–2099. -/
def yearOf (s : Str) : Nat := if s.length ≤ 2 then 2000 + natOf s else natOf s

def validMD (m d : Nat) : Bool := 1 ≤ m && m ≤ 12 && 1 ≤ d && d ≤ 31

def monthWords : List (String × Nat) :=
  [("jan", 1), ("feb", 2), ("mar", 3), ("apr", 4), ("may", 5), ("jun", 6),
   ("jul", 7), ("aug", 8), ("sep", 9), ("oct", 10), ("nov", 11), ("dec", 12)]

/-- A month word (full or abbreviated: anything starting with the
first three letters). -/
def monthOf (w : Str) : Option Nat :=
  (monthWords.find? (fun mw => mw.1.data.isPrefixOf (lowerS w))).map (·.2)

/-- Modelled from the spec: `dateparser.parse` (the external date
resolution library, not part of `src/`) with settings
`TIMEZONE = Asia/Dhaka`, `RETURN_AS_TIMEZONE_AWARE = True`,
`PREFER_DATES_FROM = future`, on the date-token shapes the extractor
feeds it (spec section 4.1: numeric `DD/MM/YYYY` with `/`, `-` or `.`
separators, ISO `YYYY-MM-DD`, `DD Month YYYY`, `Month DD, YYYY`).  A
token with an explicit year resolves to exactly that calendar date (the
future preference only re-anchors year-less input, which the extractor
patterns never produce); unparseable text gives `none`. -/
def dateparserParse (raw : Str) : Option Date :=
  let s := pyStrip raw
  match splitOnP (fun c => c = '/' || c = '-' || c = '.') s with
  | [a, b, c] =>
    if allDigits a && allDigits b && allDigits c && s.all (fun ch => ch.isDigit || ch = '/' || ch = '-' || ch = '.') then
      if a.length = 4 then
        -- ISO year-first
        if validMD (natOf b) (natOf c) then some ⟨natOf a, natOf b, natOf c⟩ else none
      else
        -- day-first DD/MM/YYYY
        if validMD (natOf b) (natOf a) then some ⟨yearOf c, natOf b, natOf a⟩ else none
    else none
  | _ =>
    match splitOnP (fun c => isSpaceC c || c = ',') s with
    | [x, y, z] =>
      if allDigits x && allDigits z then
        -- "15 February 2026"
        match monthOf y with
        | some m => if validMD m (natOf x) then some ⟨yearOf z, m, natOf x⟩ else none
        | none => none
      else if allDigits y && allDigits z then
        -- "February 15, 2026"
        match monthOf x with
        | some m => if validMD m (natOf y) then some ⟨yearOf z, m, natOf y⟩ else none
        | none => none
      else none
    | _ => none

/-! ## Pattern-rule extractors (`extract_*_regex` in `src/extractor.py`) -/

/-- First pattern whose candidate passes its sanity filter wins
(the `for pattern in patterns` loops). -/
def firstMatch (f : RE → Option Str) : List RE → Option Str
  | [] => none
  | p :: ps =>
    match f p with
    | some r => some r
    | none => firstMatch f ps

/-- One iteration of the `extract_company_regex` loop. -/
def companyFromPat (text : Str) (pat : RE) : Option Str :=
  match searchCap pat text with
  | none => none
  | some cap =>
    let company := normWs (pyStrip cap)
    if 3 < company.length && company.length < 100 &&
        !(lowerS company = ("job").data || lowerS company = ("position").data ||
          lowerS company = ("role").data) then
      some company
    else none

/-- Model of `extract_company_regex` (extractor.py 110–155). -/
def extract_company_regex (text : Str) : Option Str :=
  firstMatch (companyFromPat text) companyPatterns

/-- One iteration of the `extract_position_regex` loop. -/
def positionFromPat (text : Str) (pat : RE) : Option Str :=
  match searchCap pat text with
  | none => none
  | some cap =>
    let position := normWs (pyStrip cap)
    if 3 < position.length && position.length < 150 then some position else none

/-- Model of `extract_position_regex` (extractor.py 158–206). -/
def extract_position_regex (text : Str) : Option Str :=
  firstMatch (positionFromPat text) positionPatterns

/-- One iteration of the labeled-location loop: strip, collapse
whitespace, delete a `|`-separated tail and a trailing
`Job/Employment/Salary/Deadline:`-metadata tail, then length-check. -/
def locationFromLabeled (text : Str) (pat : RE) : Option Str :=
  match searchCap pat text with
  | none => none
  | some cap =>
    let location := normWs (pyStrip cap)
    let location := deleteFromMatch pipeTailPat location
    let location := deleteFromMatch fieldTailPat location
    if 3 < location.length && location.length < 200 then some location else none

/-- The city-with-context fallback of `extract_location_regex`: strip,
collapse whitespace, drop a leading `at|in|from`, then length-check. -/
def locContext (text : Str) : Option Str :=
  match searchCap locCtxPat text with
  | none => none
  | some cap =>
    let location := stripLeadPrep (normWs (pyStrip cap))
    if 3 < location.length && location.length < 200 then some location else none

/-- The last three fallbacks of `extract_location_regex`: a bare city
name, a Dhaka area name, then the remote-work check. -/
def locCityAreaRemote (text : Str) : Option Str :=
  match searchCap locCityPat text with
  | some cap => some (pyStrip cap)
  | none =>
    match searchCap locAreaPat text with
    | some cap => some (pyStrip cap)
    | none =>
      if searchBool locRemotePat text then some (("Remote").data) else none

/-- Model of `extract_location_regex` (extractor.py 209–291). -/
def extract_location_regex (text : Str) : Option Str :=
  match firstMatch (locationFromLabeled text) [locPat1, locPat2] with
  | some l => some l
  | none =>
    match locContext text with
    | some l => some l
    | none => locCityAreaRemote text

/-- Pattern 1 of `extract_salary_regex` (the labeled branch with its
digit-or-negotiable validation and the 150-character cap). -/
def salBranch1 (text : Str) : Option Str :=
  match searchCap salPat1 text with
  | none => none
  | some cap =>
    let salary := normWs (pyStrip cap)
    if searchBool digitOrNegPat salary && salary.length < 150 then some salary else none

/-- One iteration of the currency-first loop (pattern 2): the `\d`
validation plus the `3 < len < 150` bounds. -/
def salCurrencyFirst (text : Str) (pat : RE) : Option Str :=
  match searchCap pat text with
  | none => none
  | some cap =>
    let salary := normWs (pyStrip cap)
    if searchBool digitPat salary && 3 < salary.length && salary.length < 150 then
      some salary
    else none

/-- One iteration of the amount-first loop (pattern 3): the `\d{2,}`
validation plus the bounds. -/
def salAmountFirst (text : Str) (pat : RE) : Option Str :=
  match searchCap pat text with
  | none => none
  | some cap =>
    let salary := normWs (pyStrip cap)
    if searchBool digit2Pat salary && 3 < salary.length && salary.length < 150 then
      some salary
    else none

/-- Pattern 4 of `extract_salary_regex` (contextual numbers near a
salary keyword, guarded only by the 100-character cap). -/
def salBranch4 (text : Str) : Option Str :=
  match searchCap salPat4 text with
  | none => none
  | some cap =>
    let potential := pyStrip cap
    if potential.length < 100 then some (normWs potential) else none

/-- Patterns 5 and 6 of `extract_salary_regex` (the negotiable literal,
then the conservative standalone range). -/
def salBranch56 (text : Str) : Option Str :=
  match searchCap salPat5 text with
  | some cap => some cap
  | none =>
    match searchCap salPat6 text with
    | some cap => some (normWs (pyStrip cap))
    | none => none

/-- Model of `extract_salary_regex` (extractor.py 294–410), the six branches in
source order. -/
def extract_salary_regex (text : Str) : Option Str :=
  match salBranch1 text with
  | some s => some s
  | none =>
  match firstMatch (salCurrencyFirst text) [salPat2a, salPat2b] with
  | some s => some s
  | none =>
  match firstMatch (salAmountFirst text) [salPat3a, salPat3b] with
  | some s => some s
  | none =>
  match salBranch4 text with
  | some s => some s
  | none => salBranch56 text

/-- The keyword-anchored loop of `extract_deadline_regex`
(extractor.py 49–71): first pattern with any `findall` match; its first
match is parsed, a parse exception or `None` lets the loop move on. -/
def kwDeadline (parse : Str → Except String (Option Date)) : List RE → Str → Option Date
  | [], _ => none
  | p :: ps, tl =>
    match findallCaps p tl with
    | [] => kwDeadline parse ps tl
    | m :: _ =>
      match parse m with
      | .error _ => kwDeadline parse ps tl
      | .ok (some d) => some d
      | .ok none => kwDeadline parse ps tl

/-- Inner loop of the standalone-date fallback: first match that parses
to an instant strictly after `now` wins. -/
def saMatches (parse : Str → Except String (Option Date)) (now : Date) :
    List Str → Option Date
  | [] => none
  | m :: ms =>
    match parse m with
    | .error _ => saMatches parse now ms
    | .ok (some d) => if dateLtB now d then some d else saMatches parse now ms
    | .ok none => saMatches parse now ms

/-- The standalone-date loop of `extract_deadline_regex`
(extractor.py 73–104). -/
def saDeadline (parse : Str → Except String (Option Date)) (now : Date) :
    List RE → Str → Option Date
  | [], _ => none
  | p :: ps, tl =>
    match saMatches parse now (findallCaps p tl) with
    | some d => some d
    | none => saDeadline parse now ps tl

/-- Model of `extract_deadline_regex` (extractor.py 32–107): keyword patterns over
the lowercased text first, then the standalone-date fallback. -/
def extract_deadline_regex (parse : Str → Except String (Option Date)) (now : Date)
    (text : Str) : Option Date :=
  let tl := lowerS text
  match kwDeadline parse DATE_PATTERNS tl with
  | some d => some d
  | none => saDeadline parse now dateOnlyPatterns tl

/-! ## Ollama single-field agents (`_extract_*` in `src/extractor.py`)

`ollama.generate(model=..., prompt=..., options=...)` is modelled as a
function from the prompt to a raw response (`Except.error` standing for
any raised backend exception); the fixed model name and generation
options carry no information for the claims. -/

def companyPrompt (text : Str) : Str :=
  ("\nLook at this job posting and extract ONLY the company name.\n\nJob Posting:\n").data
  ++ text ++
  ("\n\nInstructions:\n- Look for company name at the top, in headers, or near \"Company:\", \"Organization:\", \"Join\", \"About us:\"\n- Check email addresses (e.g., hr@companyname.com means company is \"CompanyName\")\n- Look in footer or signature\n- Return ONLY the company name, nothing else\n- If you cannot find it, return the word \"null\"\n\nExamples:\n- \"Acme Corporation is hiring\" → Acme Corporation\n- \"Email: jobs@techcorp.com\" → TechCorp\n- \"About XYZ Limited\" → XYZ Limited\n\nCompany name:").data

def positionPrompt (text : Str) : Str :=
  ("\nLook at this job posting and extract ONLY the job title/position.\n\nJob Posting:\n").data
  ++ text ++
  ("\n\nInstructions:\n- Look for \"Job Title:\", \"Position:\", \"Role:\", \"Vacancy:\", \"Hiring for:\", \"We are looking for\"\n- Usually appears at the very top or in the first few lines\n- Return ONLY the job title, nothing else\n- If you cannot find it, return the word \"null\"\n\nExamples:\n- \"Software Engineer - Full Stack\" → Software Engineer - Full Stack\n- \"We are hiring: Marketing Manager\" → Marketing Manager\n- \"Position: Data Analyst Intern\" → Data Analyst Intern\n\nJob title:").data

def locationPrompt (text : Str) : Str :=
  ("\nLook at this job posting and extract ONLY the work location.\n\nJob Posting:\n").data
  ++ text ++
  ("\n\nInstructions:\n- Look for \"Location:\", \"Office:\", \"Workplace:\", \"Job Location:\", \"Work from\"\n- Look for city names like Dhaka, Chittagong, Sylhet, Khulna, etc.\n- Look for area names like Gulshan, Banani, Dhanmondi, Niketon, etc.\n- Include full address if provided (House #, Road #, Block, postal code)\n- Include \"Remote\" or \"Work from home\" if mentioned\n- Return ONLY the location, nothing else\n- If you cannot find it, return the word \"null\"\n\nExamples:\n- \"Location: Dhaka, Bangladesh\" → Dhaka, Bangladesh\n- \"Office: Gulshan 2, Dhaka\" → Gulshan 2, Dhaka\n- \"Remote work\" → Remote\n- \"Location: Police Park, House #05, Road #10, Block D, Dhaka 1219\" → Police Park, House #05, Road #10, Block D, Dhaka 1219\n\nLocation:").data

def salaryPrompt (text : Str) : Str :=
  ("\nLook at this job posting and extract ONLY the salary information.\n\nJob Posting:\n").data
  ++ text ++
  ("\n\nInstructions:\n- Look for \"Salary:\", \"Compensation:\", \"Pay:\", \"Monthly Salary:\", \"Package:\"\n- Look for currency symbols: BDT, USD, $, ৳, Tk, Tk.\n- Look for numbers followed by these keywords\n- Include the full salary range if given\n- Include suffixes like (Monthly), (Negotiable), per month, etc.\n- Return ONLY the salary info, nothing else\n- If you cannot find it, return the word \"null\"\n\nExamples:\n- \"Salary: 50,000 BDT per month\" → 50,000 BDT per month\n- \"Monthly: ৳40,000 - ৳60,000\" → ৳40,000 - ৳60,000\n- \"Compensation: $800/month\" → $800/month\n- \"Tk. 22,000 - 30,000 (Monthly)\" → Tk. 22,000 - 30,000 (Monthly)\n- \"Salary: Negotiable\" → Negotiable\n\nSalary:").data

def deadlinePrompt (text : Str) : Str :=
  ("\nLook at this job posting and extract ONLY the application deadline date.\n\nJob Posting:\n").data
  ++ text ++
  ("\n\nInstructions:\n- Look for \"Deadline:\", \"Apply by:\", \"Last date:\", \"Applications close:\", \"Valid till:\"\n- Return the date in YYYY-MM-DD format if possible\n- If you cannot find a deadline, return the word \"null\"\n\nExamples:\n- \"Deadline: February 15, 2026\" → 2026-02-15\n- \"Apply by 10th March 2026\" → 2026-03-10\n- \"Last date: 05/02/2026\" → 2026-02-05\n\nDeadline (YYYY-MM-DD):").data

def descriptionPrompt (text : Str) : Str :=
  ("\nLook at this job posting and write a ONE sentence summary (max 200 characters).\n\nJob Posting:\n").data
  ++ text ++
  ("\n\nInstructions:\n- Summarize what the job is about in 1 sentence\n- Focus on key responsibilities or role\n- Keep it under 200 characters\n- If you cannot summarize, return the word \"null\"\n\nSummary:").data

/-- The shared response post-processing of the `_extract_*` agents:
strip, reject the `null` sentinel, the empty response and over-long
responses (`len(result) > maxLen`). -/
def agentClean (maxLen : Nat) (resp : Str) : Option Str :=
  let result := pyStrip resp
  if lowerS result = ("null").data || result.isEmpty || maxLen < result.length then none
  else some result

/-- Model of `_extract_company` (extractor.py 413–455); any backend exception is
caught and yields `None`. -/
def _extract_company (gen : Str → Except String Str) (text : Str) : Option Str :=
  match gen (companyPrompt text) with
  | .error _ => none
  | .ok resp => agentClean 100 resp

/-- Model of `_extract_position` (extractor.py 458–498). -/
def _extract_position (gen : Str → Except String Str) (text : Str) : Option Str :=
  match gen (positionPrompt text) with
  | .error _ => none
  | .ok resp => agentClean 150 resp

/-- Model of `_extract_location` (extractor.py 501–545). -/
def _extract_location (gen : Str → Except String Str) (text : Str) : Option Str :=
  match gen (locationPrompt text) with
  | .error _ => none
  | .ok resp => agentClean 200 resp

/-- Model of `_extract_salary` (extractor.py 548–593). -/
def _extract_salary (gen : Str → Except String Str) (text : Str) : Option Str :=
  match gen (salaryPrompt text) with
  | .error _ => none
  | .ok resp => agentClean 100 resp

/-- Model of `_extract_deadline` (extractor.py 596–635); returns the raw date
string, parsing happens at the call site. -/
def _extract_deadline (gen : Str → Except String Str) (text : Str) : Option Str :=
  match gen (deadlinePrompt text) with
  | .error _ => none
  | .ok resp => agentClean 50 resp

/-- The response post-processing of `_extract_description`: the
250-character rejection, then truncation to 197 characters plus an
ellipsis for responses over 200. -/
def descClean (resp : Str) : Option Str :=
  let result := pyStrip resp
  if lowerS result = ("null").data || result.isEmpty || 250 < result.length then none
  else if 200 < result.length then some (result.take 197 ++ ("...").data)
  else some result

/-- Model of `_extract_description` (extractor.py 638–677). -/
def _extract_description (gen : Str → Except String Str) (text : Str) : Option Str :=
  match gen (descriptionPrompt text) with
  | .error _ => none
  | .ok resp => descClean resp

/-! ## The extraction pipeline (`src/extractor.py` 680–837) -/

/-- The Ollama backend surface seen by the pipeline: the
`OLLAMA_AVAILABLE` import flag, the `ollama.list()` connectivity probe
and `ollama.generate` — the latter two may raise. -/
structure OllamaB where
  available : Bool
  listOk : Except String Unit
  generate : Str → Except String Str

/-- Process-wide effect parameters: the backend, `dateparser.parse`
(which may raise or return `None`) and `datetime.now(config.TIMEZONE)`. -/
structure Params where
  ollama : OllamaB
  parse : Str → Except String (Option Date)
  now : Date

/-- The job-record dictionary assembled by the pipeline.  `added_on` is
only set by the top-level `extract_job_details`. -/
structure JobData where
  company : Option Str
  position : Option Str
  location : Option Str
  salary : Option Str
  deadline : Option Date
  description : Option Str
  url : Option Str
  added_on : Option Date := none
deriving DecidableEq

/-- Model of `_extract_with_regex_only` (extractor.py 680–705): regex rules for
the four string fields over the first 5000 characters; deadline and
description stay `None` here. -/
def _extract_with_regex_only (text : Str) (url : Option Str) : JobData :=
  let text_sample := text.take 5000
  { company := extract_company_regex text_sample
    position := extract_position_regex text_sample
    location := extract_location_regex text_sample
    salary := extract_salary_regex text_sample
    deadline := none
    description := none
    url := url }

/-- Python truthiness fallback `if not job_data[f]: job_data[f] = regex(...)`
(`None` and the empty string are falsy). -/
def orFalsy (a b : Option Str) : Option Str :=
  match a with
  | none => b
  | some s => if s.isEmpty then b else some s

/-- Model of `extract_job_details_ollama` (extractor.py 708–799): regex-only when
the import failed or `ollama.list()` raises; otherwise the six
single-field passes, each string field falling back to its regex rule. -/
def extract_job_details_ollama (P : Params) (text : Str) (url : Option Str) : JobData :=
  if !P.ollama.available then _extract_with_regex_only text url
  else
    match P.ollama.listOk with
    | .error _ => _extract_with_regex_only text url
    | .ok _ =>
      let ts := text.take 5000
      { company := orFalsy (_extract_company P.ollama.generate ts) (extract_company_regex ts)
        position := orFalsy (_extract_position P.ollama.generate ts) (extract_position_regex ts)
        location := orFalsy (_extract_location P.ollama.generate ts) (extract_location_regex ts)
        salary := orFalsy (_extract_salary P.ollama.generate ts) (extract_salary_regex ts)
        deadline :=
          match _extract_deadline P.ollama.generate ts with
          | none => none
          | some ds =>
            if ds.isEmpty then none
            else
              match P.parse ds with
              | .error _ => none
              | .ok d => d
        description := _extract_description P.ollama.generate ts
        url := url }

/-- Model of `extract_job_details` (extractor.py 802–837): the regex deadline of
step 1 fills in when the Ollama pass produced none, a truthy `url`
argument is copied into the record, and the extraction timestamp is
attached. -/
def extract_job_details (P : Params) (text : Str) (url : Option Str) : JobData :=
  let deadline := extract_deadline_regex P.parse P.now text
  let jd := extract_job_details_ollama P text url
  let jd := if deadline.isSome && !jd.deadline.isSome then { jd with deadline := deadline } else jd
  let jd :=
    match url with
    | none => jd
    | some u => if u.isEmpty then jd else { jd with url := some u }
  { jd with added_on := some P.now }

/-! ## Exception-level semantics (for the totality claim)

The `*E` functions give the same code its exception-transparent
semantics: every call into a fallible primitive (`ollama.list`,
`ollama.generate`, `dateparser.parse`) happens inside the `Except` monad
and each `try/except` of the source is a `tryE` at exactly that spot; an
uncaught exception would surface as `Except.error`.  The totality claim
is that they always return `Except.ok` of the plain functions above. -/

def tryE {α : Type} (x : Except String α) (h : String → Except String α) :
    Except String α :=
  match x with
  | .error e => h e
  | .ok a => .ok a

/-- Keyword loop with explicit exceptions; the source `try` wraps the
parse and the conditional return, `except` continues with the next
pattern. -/
def kwDeadlineE (parse : Str → Except String (Option Date)) :
    List RE → Str → Except String (Option Date)
  | [], _ => .ok none
  | p :: ps, tl =>
    match findallCaps p tl with
    | [] => kwDeadlineE parse ps tl
    | m :: _ =>
      match tryE (do
          let d ← parse m
          pure d) (fun _ => .ok none) with
      | .error e => .error e
      | .ok (some d) => .ok (some d)
      | .ok none => kwDeadlineE parse ps tl

/-- Standalone-date inner loop with explicit exceptions. -/
def saMatchesE (parse : Str → Except String (Option Date)) (now : Date) :
    List Str → Except String (Option Date)
  | [] => .ok none
  | m :: ms =>
    match tryE (do
        let d ← parse m
        pure d) (fun _ => .ok none) with
    | .error e => .error e
    | .ok (some d) =>
      if dateLtB now d then .ok (some d) else saMatchesE parse now ms
    | .ok none => saMatchesE parse now ms

def saDeadlineE (parse : Str → Except String (Option Date)) (now : Date) :
    List RE → Str → Except String (Option Date)
  | [], _ => .ok none
  | p :: ps, tl =>
    match saMatchesE parse now (findallCaps p tl) with
    | .error e => .error e
    | .ok (some d) => .ok (some d)
    | .ok none => saDeadlineE parse now ps tl

def extract_deadline_regexE (parse : Str → Except String (Option Date)) (now : Date)
    (text : Str) : Except String (Option Date) :=
  let tl := lowerS text
  match kwDeadlineE parse DATE_PATTERNS tl with
  | .error e => .error e
  | .ok (some d) => .ok (some d)
  | .ok none => saDeadlineE parse now dateOnlyPatterns tl

def _extract_companyE (gen : Str → Except String Str) (text : Str) :
    Except String (Option Str) :=
  tryE (do
      let resp ← gen (companyPrompt text)
      pure (agentClean 100 resp))
    (fun _ => .ok none)

def _extract_positionE (gen : Str → Except String Str) (text : Str) :
    Except String (Option Str) :=
  tryE (do
      let resp ← gen (positionPrompt text)
      pure (agentClean 150 resp))
    (fun _ => .ok none)

def _extract_locationE (gen : Str → Except String Str) (text : Str) :
    Except String (Option Str) :=
  tryE (do
      let resp ← gen (locationPrompt text)
      pure (agentClean 200 resp))
    (fun _ => .ok none)

def _extract_salaryE (gen : Str → Except String Str) (text : Str) :
    Except String (Option Str) :=
  tryE (do
      let resp ← gen (salaryPrompt text)
      pure (agentClean 100 resp))
    (fun _ => .ok none)

def _extract_deadlineE (gen : Str → Except String Str) (text : Str) :
    Except String (Option Str) :=
  tryE (do
      let resp ← gen (deadlinePrompt text)
      pure (agentClean 50 resp))
    (fun _ => .ok none)

def _extract_descriptionE (gen : Str → Except String Str) (text : Str) :
    Except String (Option Str) :=
  tryE (do
      let resp ← gen (descriptionPrompt text)
      pure (descClean resp))
    (fun _ => .ok none)

/-- Model of `extract_job_details_ollama` with explicit exceptions: the
`ollama.list()` probe and the whole multi-pass block each sit in their
own source `try`, both falling back to regex-only extraction. -/
def extract_job_details_ollamaE (P : Params) (text : Str) (url : Option Str) :
    Except String JobData :=
  if !P.ollama.available then .ok (_extract_with_regex_only text url)
  else
    match P.ollama.listOk with
    | .error _ => .ok (_extract_with_regex_only text url)
    | .ok _ =>
      tryE (do
          let ts := text.take 5000
          let ac ← _extract_companyE P.ollama.generate ts
          let company := orFalsy ac (extract_company_regex ts)
          let ap ← _extract_positionE P.ollama.generate ts
          let position := orFalsy ap (extract_position_regex ts)
          let al ← _extract_locationE P.ollama.generate ts
          let location := orFalsy al (extract_location_regex ts)
          let asl ← _extract_salaryE P.ollama.generate ts
          let salary := orFalsy asl (extract_salary_regex ts)
          let ads ← _extract_deadlineE P.ollama.generate ts
          let deadline ←
            match ads with
            | none => pure none
            | some ds =>
              if ds.isEmpty then pure none
              else
                match tryE (P.parse ds) (fun _ => .ok none) with
                | .error e => throw e
                | .ok d => pure d
          let description ← _extract_descriptionE P.ollama.generate ts
          pure { company, position, location, salary, deadline, description,
                 url : JobData })
        (fun _ => .ok (_extract_with_regex_only text url))

/-- Model of `extract_job_details` with explicit exceptions; it has no `try` of
its own, so an exception from either step would propagate to its caller. -/
def extract_job_detailsE (P : Params) (text : Str) (url : Option Str) :
    Except String JobData := do
  let deadline ← extract_deadline_regexE P.parse P.now text
  let jd ← extract_job_details_ollamaE P text url
  let jd := if deadline.isSome && !jd.deadline.isSome then { jd with deadline := deadline } else jd
  let jd :=
    match url with
    | none => jd
    | some u => if u.isEmpty then jd else { jd with url := some u }
  pure { jd with added_on := some P.now }

/-! ## The language of a pattern fragment and structural predicates

`Accepts re t` is the usual language membership for the anchor-free
regex fragment (`$`/`\b` are zero-width and accept the empty list, which
is all the soundness lemma needs: every list of characters consumed by
`matR` is in the language of the consumed pattern). -/

inductive Accepts : RE → Str → Prop where
  | eps : Accepts .eps []
  | cls {p c} : p c = true → Accepts (.cls p) [c]
  | catA {a b t₁ t₂} : Accepts a t₁ → Accepts b t₂ → Accepts (.cat a b) (t₁ ++ t₂)
  | altL {a b t} : Accepts a t → Accepts (.alt a b) t
  | altR {a b t} : Accepts b t → Accepts (.alt a b) t
  | starGNil {a} : Accepts (.starG a) []
  | starGCons {a t₁ t₂} : Accepts a t₁ → Accepts (.starG a) t₂ → Accepts (.starG a) (t₁ ++ t₂)
  | starLNil {a} : Accepts (.starL a) []
  | starLCons {a t₁ t₂} : Accepts a t₁ → Accepts (.starL a) t₂ → Accepts (.starL a) (t₁ ++ t₂)
  | grp {a t} : Accepts a t → Accepts (.group a) t
  | eos {ml} : Accepts (.eos ml) []
  | wordB : Accepts .wordB []

/-- Predicate `nn re`: every match of `re` consumes at least one character. -/
def nn : RE → Bool
  | .eps => false
  | .cls _ => true
  | .cat a b => nn a || nn b
  | .alt a b => nn a && nn b
  | .starG _ => false
  | .starL _ => false
  | .group a => nn a
  | .eos _ => false
  | .wordB => false

/-- Predicate `hasGroup re`: every successful match passes through a
capturing group (so `match.group(1)` is set). -/
def hasGroup : RE → Bool
  | .group _ => true
  | .cat a b => hasGroup a || hasGroup b
  | .alt a b => hasGroup a && hasGroup b
  | _ => false

/-- No capturing group inside. -/
def groupFree : RE → Bool
  | .group _ => false
  | .cat a b => groupFree a && groupFree b
  | .alt a b => groupFree a && groupFree b
  | .starG a => groupFree a
  | .starL a => groupFree a
  | _ => true

/-- Predicate `capInv P re`: every capture any group of `re` can record
satisfies `P` (the language of each group body is contained in `P`). -/
def capInv (P : Str → Prop) : RE → Prop
  | .cat a b => capInv P a ∧ capInv P b
  | .alt a b => capInv P a ∧ capInv P b
  | .starG a => capInv P a
  | .starL a => capInv P a
  | .group a => (∀ t, Accepts a t → P t) ∧ capInv P a
  | _ => True

/-- Field shape asserted by claim C8: the option is `none` or holds a
non-empty string. -/
def optNE : Option Str → Bool
  | none => true
  | some s => !s.isEmpty

/-- The amended salary-shape property (claim C3): a digit, or the word
"negotiable" case-insensitively, or one of the two other literal
fallbacks of the `negotiable_match` branch up to letter case, or a
comma. -/
def salaryOKP (s : Str) : Prop :=
  (∃ c ∈ s, c.isDigit = true) ∨
  (("negotiable").data <:+: lowerS s) ∨
  lowerS s = (("as per company policy").data) ∨
  lowerS s = (("competitive").data) ∨
  ',' ∈ s

/-- The predicate guaranteed for every capture of the city and area
fallback patterns: some character is not whitespace (so `str.strip`
keeps it). -/
def hasNonSpace (t : Str) : Prop := ∃ c ∈ t, isSpaceC c = false

/-- The predicate guaranteed for the contextual salary capture
(pattern 4): it contains a digit or a comma. -/
def hasDigitComma (t : Str) : Prop := ∃ c ∈ t, (c.isDigit || c = ',') = true

/-- The predicate guaranteed for the standalone salary capture
(pattern 6): it contains a digit. -/
def hasDigit (t : Str) : Prop := ∃ c ∈ t, c.isDigit = true

/-! ## Concrete inputs and parameter packs for the scenario claims -/

/-- A `dateparser.parse` stub that never raises: returns the modelled parse. -/
def pureParse : Str → Except String (Option Date) := fun s => .ok (dateparserParse s)

/-- No model backend configured: the `ollama` import failed
(`OLLAMA_AVAILABLE = False`); the generate stub is never consulted. -/
def noBackend : OllamaB := ⟨false, .ok (), fun _ => .error ("no backend")⟩

/-- A reachable backend that answers every prompt with `Acme Corp`. -/
def acmeBackend : OllamaB := ⟨true, .ok (), fun _ => .ok (("Acme Corp").data)⟩

/-- The pattern-only scenario input of claim C2. -/
def c2text : Str :=
  ("Company: Acme Corporation is hiring. Position: Backend Engineer. Location: Dhaka. Salary: BDT 40,000 - 55,000. Deadline: 15/02/2026.").data

def c2params : Params := ⟨noBackend, pureParse, ⟨2025, 1, 1⟩⟩

/-- The age/experience/salary input of claim C4. -/
def c4text : Str :=
  ("Age: 25-30, Experience: 2-3 years, Salary: Tk. 50,000 - 70,000").data

/-- Input on which `extract_salary_regex` returns a string with neither
a digit nor "negotiable" (claim C3). -/
def c3text : Str := ("Salary: Competitive").data

/-- A bare standalone date, for the witness of claim C5. -/
def c5text : Str := ("15/02/2026").data

/-- A keyword-anchored deadline lying in the past, for the witness of claim C6. -/
def c6text : Str := ("Deadline: 15/02/2020").data

/-- Extraction moment after the `c6text` deadline. -/
def now26 : Date := ⟨2026, 1, 1⟩

def c9params : Params := ⟨acmeBackend, pureParse, ⟨2025, 1, 1⟩⟩

/-! Theorems from here on; first, basic string-helper lemmas. -/

theorem mem_dropWhile_of_not {l : Str} {c : Char} (h : c ∈ l) (hc : isSpaceC c = false) :
    c ∈ l.dropWhile isSpaceC := by
  induction l with
  | nil => cases h
  | cons x xs ih =>
    rw [List.dropWhile_cons]
    rcases List.mem_cons.mp h with rfl | hm
    · simp [hc]
    · by_cases hx : isSpaceC x = true
      · simp [hx]; exact ih hm
      · simp [hx]; exact Or.inr hm

theorem mem_pyStrip {l : Str} {c : Char} (h : c ∈ l) (hc : isSpaceC c = false) :
    c ∈ pyStrip l := by
  unfold pyStrip
  exact List.mem_reverse.mpr
    (mem_dropWhile_of_not (List.mem_reverse.mpr (mem_dropWhile_of_not h hc)) hc)

theorem mem_normWsGo {l : Str} {c : Char} (b : Bool) (h : c ∈ l) (hc : isSpaceC c = false) :
    c ∈ normWsGo b l := by
  induction l generalizing b with
  | nil => cases h
  | cons x xs ih =>
    rcases List.mem_cons.mp h with rfl | hm
    · simp [normWsGo, hc]
    · by_cases hx : isSpaceC x = true
      · cases b
        · have he : normWsGo false (x :: xs) = ' ' :: normWsGo true xs := by
            simp [normWsGo, hx]
          rw [he]; exact List.mem_cons_of_mem _ (ih true hm)
        · have he : normWsGo true (x :: xs) = normWsGo true xs := by
            simp [normWsGo, hx]
          rw [he]; exact ih true hm
      · rw [Bool.not_eq_true] at hx
        simp only [normWsGo, hx]
        exact List.mem_cons_of_mem _ (ih false hm)

theorem mem_normWs {l : Str} {c : Char} (h : c ∈ l) (hc : isSpaceC c = false) :
    c ∈ normWs l := mem_normWsGo false h hc

theorem pyStrip_ne_nil {l : Str} {c : Char} (h : c ∈ l) (hc : isSpaceC c = false) :
    pyStrip l ≠ [] := List.ne_nil_of_mem (mem_pyStrip h hc)

theorem normWs_pyStrip_ne_nil {l : Str} {c : Char} (h : c ∈ l) (hc : isSpaceC c = false) :
    normWs (pyStrip l) ≠ [] := List.ne_nil_of_mem (mem_normWs (mem_pyStrip h hc) hc)

theorem isSpaceC_cases {x : Char} (h : isSpaceC x = true) :
    x = ' ' ∨ x = '\t' ∨ x = '\n' ∨ x = '\r' ∨ x = '\x0b' ∨ x = '\x0c' := by
  simp only [isSpaceC, Bool.or_eq_true, decide_eq_true_eq] at h
  tauto

/-- A character whose lowercase image is an ASCII letter is not
whitespace. -/
theorem notSpace_of_toLower_alpha {x : Char} (h : x.toLower.isAlpha = true) :
    isSpaceC x = false := by
  by_contra hc
  rw [Bool.not_eq_false] at hc
  rcases isSpaceC_cases hc with rfl | rfl | rfl | rfl | rfl | rfl <;> exact absurd h (by decide)

/-- A digit or a comma is not whitespace. -/
theorem notSpace_of_digitComma {x : Char} (h : (x.isDigit || x = ',') = true) :
    isSpaceC x = false := by
  by_contra hc
  rw [Bool.not_eq_false] at hc
  rcases isSpaceC_cases hc with rfl | rfl | rfl | rfl | rfl | rfl <;> exact absurd h (by decide)

/-! ## Inversion lemmas for `Accepts` -/

theorem acceptsEps {t : Str} (h : Accepts .eps t) : t = [] := by cases h; rfl

theorem acceptsCls {p : Char → Bool} {t : Str} (h : Accepts (.cls p) t) :
    ∃ c, t = [c] ∧ p c = true := by
  cases h with
  | cls hp => exact ⟨_, rfl, hp⟩

theorem acceptsCat {a b : RE} {t : Str} (h : Accepts (.cat a b) t) :
    ∃ t₁ t₂, t = t₁ ++ t₂ ∧ Accepts a t₁ ∧ Accepts b t₂ := by
  cases h with
  | catA h₁ h₂ => exact ⟨_, _, rfl, h₁, h₂⟩

theorem acceptsAlt {a b : RE} {t : Str} (h : Accepts (.alt a b) t) :
    Accepts a t ∨ Accepts b t := by
  cases h with
  | altL h₁ => exact Or.inl h₁
  | altR h₂ => exact Or.inr h₂

theorem acceptsGroup {a : RE} {t : Str} (h : Accepts (.group a) t) : Accepts a t := by
  cases h with
  | grp h₁ => exact h₁

/-- What a case-insensitive literal accepts: the same letters up to
lowercasing. -/
theorem acceptsCiFold {l : List Char} {t : Str}
    (h : Accepts (l.foldr (fun c r => .cat (ciChar c) r) .eps) t) :
    lowerS t = lowerS l := by
  induction l generalizing t with
  | nil => simp only [List.foldr] at h; rw [acceptsEps h]
  | cons c cs ih =>
    simp only [List.foldr] at h
    obtain ⟨t₁, t₂, rfl, h₁, h₂⟩ := acceptsCat h
    obtain ⟨x, rfl, hx⟩ := acceptsCls h₁
    have hx' : x.toLower = c.toLower := by simpa using hx
    have := ih h₂
    simp only [lowerS, List.map_append, List.map_cons, List.map_nil] at this ⊢
    simp [hx', this]

theorem acceptsCiStr {s : String} {t : Str} (h : Accepts (ciStr s) t) :
    lowerS t = lowerS s.data := acceptsCiFold h

theorem acceptsCiAlt {ls : List String} {t : Str} (h : Accepts (ciAlt ls) t) :
    ∃ s ∈ ls, lowerS t = lowerS s.data := by
  induction ls generalizing t with
  | nil =>
    obtain ⟨c, _, hc⟩ := acceptsCls (show Accepts (.cls fun _ => false) t from h)
    cases hc
  | cons s rest ih =>
    match rest, h with
    | [], h => exact ⟨s, List.mem_singleton.mpr rfl, acceptsCiStr h⟩
    | r :: rs, h =>
      rcases acceptsAlt h with h₁ | h₂
      · exact ⟨s, List.mem_cons_self _ _, acceptsCiStr h₁⟩
      · obtain ⟨s', hs', ht⟩ := ih h₂
        exact ⟨s', List.mem_cons_of_mem _ hs', ht⟩

/-- A nonempty case-insensitive literal forces a nonempty match whose
head lowers to the first letter of the literal. -/
theorem acceptsCiAlt_head {ls : List String} {t : Str} (h : Accepts (ciAlt ls) t)
    (hne : ∀ s ∈ ls, s.data ≠ []) :
    ∃ x t', t = x :: t' ∧ ∃ s ∈ ls, ∃ c c', s.data = c :: c' ∧ x.toLower = c.toLower := by
  obtain ⟨s, hs, ht⟩ := acceptsCiAlt h
  match hd : s.data, t with
  | [], _ => exact absurd hd (hne s hs)
  | c :: c', [] => rw [hd] at ht; simp [lowerS] at ht
  | c :: c', x :: t' =>
    rw [hd] at ht
    simp only [lowerS, List.map_cons, List.cons.injEq] at ht
    exact ⟨x, t', rfl, s, hs, c, c', hd, ht.1⟩

/-! ## Soundness of the matcher

Whatever `matR` consumes is in the language of the pattern, non-nullable
patterns consume at least one character, and every capture handed to the
continuation satisfies any property covering the group bodies. -/

theorem capInv_cat {P : Str → Prop} {a b : RE} :
    capInv P (.cat a b) = (capInv P a ∧ capInv P b) := rfl

theorem capInv_alt {P : Str → Prop} {a b : RE} :
    capInv P (.alt a b) = (capInv P a ∧ capInv P b) := rfl

theorem capInv_group {P : Str → Prop} {a : RE} :
    capInv P (.group a) = ((∀ t, Accepts a t → P t) ∧ capInv P a) := rfl

theorem capInv_of_groupFree {P : Str → Prop} {re : RE} (h : groupFree re = true) :
    capInv P re := by
  induction re with
  | eps => trivial
  | cls p => trivial
  | eos ml => trivial
  | wordB => trivial
  | cat a b iha ihb =>
    simp only [groupFree, Bool.and_eq_true] at h
    exact ⟨iha h.1, ihb h.2⟩
  | alt a b iha ihb =>
    simp only [groupFree, Bool.and_eq_true] at h
    exact ⟨iha h.1, ihb h.2⟩
  | starG a iha => exact iha (by simpa [groupFree] using h)
  | starL a iha => exact iha (by simpa [groupFree] using h)
  | group a iha => simp [groupFree] at h

theorem matSound {α : Type} (P : Str → Prop) :
    ∀ fuel re prev s cap (k : Option Char → Str → Option Str → Option α) res,
      capInv P re → (∀ t, cap = some t → P t) →
      matR fuel re prev s cap k = some res →
      ∃ n prev' cap', n ≤ s.length ∧ Accepts re (s.take n) ∧
        (nn re = true → 0 < n) ∧ (∀ t, cap' = some t → P t) ∧
        (cap.isSome = true → cap'.isSome = true) ∧
        (hasGroup re = true → cap'.isSome = true) ∧
        k prev' (s.drop n) cap' = some res := by
  intro fuel
  induction fuel with
  | zero => intro re prev s cap k res _ _ hm; simp [matR] at hm
  | succ fuel ih =>
    intro re prev s cap k res hinv hcap hm
    cases re with
    | eps =>
      exact ⟨0, prev, cap, Nat.zero_le _, by simpa using Accepts.eps,
        by simp [nn], hcap, fun h => h, by simp [hasGroup], by simpa [matR] using hm⟩
    | cls p =>
      cases s with
      | nil => simp [matR] at hm
      | cons c rest =>
        simp only [matR] at hm
        split at hm
        case isTrue hp =>
          refine ⟨1, some c, cap, ?_, ?_, fun _ => Nat.one_pos, hcap, fun h => h,
            by simp [hasGroup], ?_⟩
          · simp
          · simpa using Accepts.cls hp
          · simpa using hm
        case isFalse => cases hm
    | cat a b =>
      simp only [matR] at hm
      obtain ⟨n₁, p₁, c₁, hn₁, hacc₁, hnn₁, hP₁, hmono₁, hgrp₁, hk₁⟩ :=
        ih a prev s cap _ res hinv.1 hcap hm
      obtain ⟨n₂, p₂, c₂, hn₂, hacc₂, hnn₂, hP₂, hmono₂, hgrp₂, hk₂⟩ :=
        ih b p₁ (s.drop n₁) c₁ k res hinv.2 hP₁ hk₁
      rw [List.length_drop] at hn₂
      refine ⟨n₁ + n₂, p₂, c₂, by omega, ?_, ?_, hP₂, fun h => hmono₂ (hmono₁ h), ?_, ?_⟩
      · rw [List.take_add]; exact Accepts.catA hacc₁ hacc₂
      · intro h
        simp only [nn, Bool.or_eq_true] at h
        rcases h with h | h
        · exact Nat.lt_of_lt_of_le (hnn₁ h) (Nat.le_add_right _ _)
        · exact Nat.lt_of_lt_of_le (hnn₂ h) (Nat.le_add_left _ _)
      · intro h
        simp only [hasGroup, Bool.or_eq_true] at h
        rcases h with h | h
        · exact hmono₂ (hgrp₁ h)
        · exact hgrp₂ h
      · rw [← List.drop_drop]; exact hk₂
    | alt a b =>
      simp only [matR] at hm
      rcases h1 : matR fuel a prev s cap k with _ | v
      · rw [h1, Option.none_orElse] at hm
        obtain ⟨n, p', c', hn, hacc, hnn, hP, hmono, hgrp, hk⟩ :=
          ih b prev s cap k res hinv.2 hcap hm
        refine ⟨n, p', c', hn, Accepts.altR hacc, ?_, hP, hmono, ?_, hk⟩
        · intro h; simp only [nn, Bool.and_eq_true] at h; exact hnn h.2
        · intro h; simp only [hasGroup, Bool.and_eq_true] at h; exact hgrp h.2
      · rw [h1, Option.some_orElse] at hm
        injection hm with hv
        subst hv
        obtain ⟨n, p', c', hn, hacc, hnn, hP, hmono, hgrp, hk⟩ :=
          ih a prev s cap k v hinv.1 hcap h1
        refine ⟨n, p', c', hn, Accepts.altL hacc, ?_, hP, hmono, ?_, hk⟩
        · intro h; simp only [nn, Bool.and_eq_true] at h; exact hnn h.1
        · intro h; simp only [hasGroup, Bool.and_eq_true] at h; exact hgrp h.1
    | starG a =>
      simp only [matR] at hm
      rcases h1 : matR fuel a prev s cap (fun p' s' c' =>
          if s'.length < s.length then matR fuel (.starG a) p' s' c' k else none) with _ | v
      · rw [h1, Option.none_orElse] at hm
        exact ⟨0, prev, cap, Nat.zero_le _, by simpa using Accepts.starGNil,
          by simp [nn], hcap, fun h => h, by simp [hasGroup], by simpa using hm⟩
      · rw [h1, Option.some_orElse] at hm
        injection hm with hv
        subst hv
        obtain ⟨n₁, p₁, c₁, hn₁, hacc₁, _, hP₁, hmono₁, _, hk₁⟩ :=
          ih a prev s cap _ v hinv hcap h1
        replace hk₁ : (if (s.drop n₁).length < s.length then
            matR fuel (.starG a) p₁ (s.drop n₁) c₁ k else none) = some v := hk₁
        split at hk₁
        case isTrue hlt =>
          obtain ⟨n₂, p₂, c₂, hn₂, hacc₂, _, hP₂, hmono₂, _, hk₂⟩ :=
            ih (.starG a) p₁ (s.drop n₁) c₁ k v hinv hP₁ hk₁
          rw [List.length_drop] at hn₂
          refine ⟨n₁ + n₂, p₂, c₂, by omega, ?_, by simp [nn],
            hP₂, fun h => hmono₂ (hmono₁ h), by simp [hasGroup], ?_⟩
          · rw [List.take_add]; exact Accepts.starGCons hacc₁ hacc₂
          · rw [← List.drop_drop]; exact hk₂
        case isFalse => cases hk₁
    | starL a =>
      simp only [matR] at hm
      rcases h1 : k prev s cap with _ | v
      · rw [h1, Option.none_orElse] at hm
        obtain ⟨n₁, p₁, c₁, hn₁, hacc₁, _, hP₁, hmono₁, _, hk₁⟩ :=
          ih a prev s cap _ res hinv hcap hm
        replace hk₁ : (if (s.drop n₁).length < s.length then
            matR fuel (.starL a) p₁ (s.drop n₁) c₁ k else none) = some res := hk₁
        split at hk₁
        case isTrue hlt =>
          obtain ⟨n₂, p₂, c₂, hn₂, hacc₂, _, hP₂, hmono₂, _, hk₂⟩ :=
            ih (.starL a) p₁ (s.drop n₁) c₁ k res hinv hP₁ hk₁
          rw [List.length_drop] at hn₂
          refine ⟨n₁ + n₂, p₂, c₂, by omega, ?_, by simp [nn],
            hP₂, fun h => hmono₂ (hmono₁ h), by simp [hasGroup], ?_⟩
          · rw [List.take_add]; exact Accepts.starLCons hacc₁ hacc₂
          · rw [← List.drop_drop]; exact hk₂
        case isFalse => cases hk₁
      · rw [h1, Option.some_orElse] at hm
        injection hm with hv
        subst hv
        exact ⟨0, prev, cap, Nat.zero_le _, by simpa using Accepts.starLNil,
          by simp [nn], hcap, fun h => h, by simp [hasGroup], by simpa using h1⟩
    | group a =>
      simp only [matR] at hm
      obtain ⟨n₁, p₁, c₁, hn₁, hacc₁, hnn₁, hP₁, _, _, hk₁⟩ :=
        ih a prev s cap _ res hinv.2 hcap hm
      replace hk₁ : k p₁ (s.drop n₁)
          (some (s.take (s.length - (s.drop n₁).length))) = some res := hk₁
      have hl : s.length - (s.drop n₁).length = n₁ := by
        rw [List.length_drop]; omega
      rw [hl] at hk₁
      refine ⟨n₁, p₁, some (s.take n₁), hn₁, Accepts.grp hacc₁, ?_, ?_,
        fun _ => rfl, fun _ => rfl, hk₁⟩
      · intro h; exact hnn₁ (by simpa [nn] using h)
      · intro t ht; cases ht; exact hinv.1 _ hacc₁
    | eos ml =>
      simp only [matR] at hm
      split at hm
      · exact ⟨0, prev, cap, Nat.zero_le _, by simpa using Accepts.eos,
          by simp [nn], hcap, fun h => h, by simp [hasGroup], by simpa using hm⟩
      · cases hm
    | wordB =>
      simp only [matR] at hm
      split at hm
      · exact ⟨0, prev, cap, Nat.zero_le _, by simpa using Accepts.wordB,
          by simp [nn], hcap, fun h => h, by simp [hasGroup], by simpa using hm⟩
      · cases hm

theorem capInvTrue : ∀ re : RE, capInv (fun _ => True) re := by
  intro re
  induction re with
  | eps => trivial
  | cls p => trivial
  | eos ml => trivial
  | wordB => trivial
  | cat a b iha ihb => exact ⟨iha, ihb⟩
  | alt a b iha ihb => exact ⟨iha, ihb⟩
  | starG a iha => exact iha
  | starL a iha => exact iha
  | group a iha => exact ⟨fun _ _ => trivial, iha⟩

/-- Soundness of the search wrapper for the group capture: when the
language of every group body is contained in `P` and a group is on
every match path, the returned `group(1)` satisfies `P`. -/
theorem searchCapAuxSound (P : Str → Prop) :
    ∀ m re prev s t, capInv P re → hasGroup re = true →
      searchCapAux m re prev s = some t → P t := by
  intro m
  induction m with
  | zero => intro re prev s t _ _ h; simp [searchCapAux] at h
  | succ m ih =>
    intro re prev s t hinv hgr h
    simp only [searchCapAux] at h
    rcases h1 : matR (bigFuel re s) re prev s none (fun _ _ cap => some (cap.getD [])) with _ | t'
    · rw [h1] at h
      cases s with
      | nil => cases h
      | cons c rest => exact ih re (some c) rest t hinv hgr h
    · rw [h1] at h
      replace h : some t' = some t := h
      injection h with ht
      obtain ⟨n, p', c', _, _, _, hP, _, hgrp, hk⟩ :=
        matSound P _ re prev s none _ t' hinv (fun u hu => by cases hu) h1
      replace hk : some (c'.getD []) = some t' := hk
      rcases hc : c' with _ | u
      · rw [hc] at hgrp
        simp [hgr] at hgrp
      · rw [hc] at hk
        injection hk with hk2
        simp only [Option.getD_some] at hk2
        rw [← ht, ← hk2]
        exact hP u (by rw [hc])

theorem searchCapSound (P : Str → Prop) {re : RE} {s t : Str}
    (hinv : capInv P re) (hgr : hasGroup re = true) (h : searchCap re s = some t) : P t :=
  searchCapAuxSound P _ re none s t hinv hgr h

/-- Soundness for the validation searches: a search success exhibits an
accepted fragment occurring inside the text. -/
theorem searchCapAuxInfix :
    ∀ m re prev s t, searchCapAux m re prev s = some t →
      ∃ u, Accepts re u ∧ u <:+: s := by
  intro m
  induction m with
  | zero => intro re prev s t h; simp [searchCapAux] at h
  | succ m ih =>
    intro re prev s t h
    simp only [searchCapAux] at h
    rcases h1 : matR (bigFuel re s) re prev s none (fun _ _ cap => some (cap.getD [])) with _ | t'
    · rw [h1] at h
      cases s with
      | nil => cases h
      | cons c rest =>
        obtain ⟨u, hu, hinf⟩ := ih re (some c) rest t h
        exact ⟨u, hu, List.infix_cons hinf⟩
    · obtain ⟨n, p', c', hn, hacc, _, _, _, _, _⟩ :=
        matSound (fun _ => True) _ re prev s none _ t' (capInvTrue re) (fun u hu => trivial) h1
      exact ⟨s.take n, hacc, ⟨[], s.drop n, by simp⟩⟩

theorem searchBoolInfix {re : RE} {s : Str} (h : searchBool re s = true) :
    ∃ u, Accepts re u ∧ u <:+: s := by
  unfold searchBool at h
  rcases hx : searchCap re s with _ | t
  · rw [hx] at h; cases h
  · exact searchCapAuxInfix _ re none s t hx

/-! ## Totality of the pipeline (claim C1 support) -/

theorem _extract_companyE_ok (g : Str → Except String Str) (t : Str) :
    _extract_companyE g t = .ok (_extract_company g t) := by
  unfold _extract_companyE _extract_company
  cases hg : g (companyPrompt t) <;> rfl

theorem _extract_positionE_ok (g : Str → Except String Str) (t : Str) :
    _extract_positionE g t = .ok (_extract_position g t) := by
  unfold _extract_positionE _extract_position
  cases hg : g (positionPrompt t) <;> rfl

theorem _extract_locationE_ok (g : Str → Except String Str) (t : Str) :
    _extract_locationE g t = .ok (_extract_location g t) := by
  unfold _extract_locationE _extract_location
  cases hg : g (locationPrompt t) <;> rfl

theorem _extract_salaryE_ok (g : Str → Except String Str) (t : Str) :
    _extract_salaryE g t = .ok (_extract_salary g t) := by
  unfold _extract_salaryE _extract_salary
  cases hg : g (salaryPrompt t) <;> rfl

theorem _extract_deadlineE_ok (g : Str → Except String Str) (t : Str) :
    _extract_deadlineE g t = .ok (_extract_deadline g t) := by
  unfold _extract_deadlineE _extract_deadline
  cases hg : g (deadlinePrompt t) <;> rfl

theorem _extract_descriptionE_ok (g : Str → Except String Str) (t : Str) :
    _extract_descriptionE g t = .ok (_extract_description g t) := by
  unfold _extract_descriptionE _extract_description
  cases hg : g (descriptionPrompt t) <;> rfl

theorem kwDeadlineE_ok (parse : Str → Except String (Option Date)) :
    ∀ ps tl, kwDeadlineE parse ps tl = .ok (kwDeadline parse ps tl) := by
  intro ps
  induction ps with
  | nil => intro tl; rfl
  | cons p ps ih =>
    intro tl
    rcases hf : findallCaps p tl with _ | ⟨m, ms⟩
    · simp only [kwDeadlineE, kwDeadline, hf]
      exact ih tl
    · simp only [kwDeadlineE, kwDeadline, hf]
      rcases hp : parse m with e | d
      · simp only [hp]; exact ih tl
      · rcases d with _ | dd
        · simp only [hp]; exact ih tl
        · simp only [hp]; rfl

theorem saMatchesE_ok (parse : Str → Except String (Option Date)) (now : Date) :
    ∀ ms, saMatchesE parse now ms = .ok (saMatches parse now ms) := by
  intro ms
  induction ms with
  | nil => rfl
  | cons m ms ih =>
    rcases hp : parse m with e | d
    · simp only [saMatchesE, saMatches, hp]
      exact ih
    · rcases d with _ | dd
      · simp only [saMatchesE, saMatches, hp]
        exact ih
      · simp only [saMatchesE, saMatches, hp]
        change (if dateLtB now dd = true then Except.ok (some dd)
            else saMatchesE parse now ms) =
          Except.ok (if dateLtB now dd = true then some dd else saMatches parse now ms)
        by_cases hlt : dateLtB now dd = true
        · rw [if_pos hlt, if_pos hlt]
        · rw [if_neg hlt, if_neg hlt]
          exact ih

theorem saDeadlineE_ok (parse : Str → Except String (Option Date)) (now : Date) :
    ∀ ps tl, saDeadlineE parse now ps tl = .ok (saDeadline parse now ps tl) := by
  intro ps
  induction ps with
  | nil => intro tl; rfl
  | cons p ps ih =>
    intro tl
    simp only [saDeadlineE, saDeadline]
    rw [saMatchesE_ok parse now (findallCaps p tl)]
    rcases saMatches parse now (findallCaps p tl) with _ | d
    · exact ih tl
    · rfl

theorem extract_deadline_regexE_ok (parse : Str → Except String (Option Date))
    (now : Date) (text : Str) :
    extract_deadline_regexE parse now text = .ok (extract_deadline_regex parse now text) := by
  show (match kwDeadlineE parse DATE_PATTERNS (lowerS text) with
      | .error e => .error e
      | .ok (some d) => .ok (some d)
      | .ok none => saDeadlineE parse now dateOnlyPatterns (lowerS text)) =
    Except.ok (match kwDeadline parse DATE_PATTERNS (lowerS text) with
      | some d => some d
      | none => saDeadline parse now dateOnlyPatterns (lowerS text))
  rw [kwDeadlineE_ok parse DATE_PATTERNS (lowerS text)]
  rcases kwDeadline parse DATE_PATTERNS (lowerS text) with _ | d
  · exact saDeadlineE_ok parse now dateOnlyPatterns (lowerS text)
  · rfl

theorem exBind_ok {α β : Type} (a : α) (f : α → Except String β) :
    (Except.ok a : Except String α) >>= f = f a := rfl

theorem exPure_bind {α β : Type} (a : α) (f : α → Except String β) :
    (pure a : Except String α) >>= f = f a := rfl

theorem tryE_okv {α : Type} (a : α) (h : String → Except String α) :
    tryE (.ok a) h = .ok a := rfl

theorem tryE_pure {α : Type} (a : α) (h : String → Except String α) :
    tryE (pure a) h = .ok a := rfl

theorem tryE_err {α : Type} (e : String) (h : String → Except String α) :
    tryE (.error e) h = h e := rfl

theorem extract_job_details_ollamaE_ok (P : Params) (text : Str) (url : Option Str) :
    extract_job_details_ollamaE P text url = .ok (extract_job_details_ollama P text url) := by
  unfold extract_job_details_ollamaE extract_job_details_ollama
  cases hav : P.ollama.available
  · rfl
  · simp only [hav, Bool.not_true, Bool.false_eq_true, if_false]
    rcases hl : P.ollama.listOk with e | u
    · rfl
    · simp only [_extract_companyE_ok, _extract_positionE_ok, _extract_locationE_ok,
        _extract_salaryE_ok, _extract_deadlineE_ok, _extract_descriptionE_ok,
        exBind_ok]
      rcases hd : _extract_deadline P.ollama.generate (text.take 5000) with _ | ds
      · simp [hd, exBind_ok, exPure_bind, tryE_okv, tryE_pure]
      · by_cases he : ds.isEmpty = true
        · simp [hd, he, exBind_ok, exPure_bind, tryE_okv, tryE_pure]
        · rw [Bool.not_eq_true] at he
          rcases hp : P.parse ds with e' | d'
          · simp [hd, he, hp, tryE_err, exBind_ok, exPure_bind, tryE_okv, tryE_pure]
          · simp [hd, he, hp, tryE_err, exBind_ok, exPure_bind, tryE_okv, tryE_pure]

/-- C1: for every input text and optional url, the pipeline entry point
`extract_job_details` returns a job-record dictionary and never raises:
its exception-level semantics `extract_job_detailsE` — in which
`ollama.list`, `ollama.generate` and `dateparser.parse` may raise
arbitrarily and each source `try/except` is modelled at its exact site —
always returns `Except.ok` of the total model, for every behaviour of
the backend and parser oracles.  (The regex rules themselves are fixed
valid patterns; `re` raises only on invalid patterns, at compile time.) -/
theorem c1_extract_job_details_total (P : Params) (text : Str) (url : Option Str) :
    extract_job_detailsE P text url = Except.ok (extract_job_details P text url) := by
  unfold extract_job_detailsE extract_job_details
  simp only [extract_deadline_regexE_ok, extract_job_details_ollamaE_ok,
    exBind_ok, exPure_bind]
  rfl

/-! ## Deadline-path lemmas (claims C5, C6, C7) -/

theorem kwDeadline_none (parse : Str → Except String (Option Date)) :
    ∀ ps tl, (∀ p ∈ ps, findallCaps p tl = []) → kwDeadline parse ps tl = none := by
  intro ps
  induction ps with
  | nil => intro tl _; rfl
  | cons p ps ih =>
    intro tl h
    simp only [kwDeadline, h p (List.mem_cons_self p ps)]
    exact ih tl (fun q hq => h q (List.mem_cons_of_mem p hq))

theorem saMatches_future (parse : Str → Except String (Option Date)) (now : Date) :
    ∀ ms d, saMatches parse now ms = some d → dateLtB now d = true := by
  intro ms
  induction ms with
  | nil => intro d h; cases h
  | cons m ms ih =>
    intro d h
    simp only [saMatches] at h
    rcases hp : parse m with e | dd
    · rw [hp] at h; exact ih d h
    · rw [hp] at h
      rcases dd with _ | d'
      · exact ih d h
      · replace h : (if dateLtB now d' = true then some d'
            else saMatches parse now ms) = some d := h
        by_cases hlt : dateLtB now d' = true
        · rw [if_pos hlt] at h
          injection h with h'
          rw [← h']; exact hlt
        · rw [if_neg hlt] at h
          exact ih d h

theorem saDeadline_future (parse : Str → Except String (Option Date)) (now : Date) :
    ∀ ps tl d, saDeadline parse now ps tl = some d → dateLtB now d = true := by
  intro ps
  induction ps with
  | nil => intro tl d h; cases h
  | cons p ps ih =>
    intro tl d h
    simp only [saDeadline] at h
    rcases hm : saMatches parse now (findallCaps p tl) with _ | d'
    · rw [hm] at h; exact ih tl d h
    · rw [hm] at h
      injection h with h'
      rw [← h']
      exact saMatches_future parse now _ d' hm

/-- C5: if the text matches none of the keyword-anchored deadline
patterns, any deadline the pattern extractor returns (necessarily from
the standalone-date fallback) is strictly later than `now`, for every
parser behaviour. -/
theorem c5_standalone_deadline_future (parse : Str → Except String (Option Date))
    (now : Date) (text : Str)
    (hkw : ∀ p ∈ DATE_PATTERNS, findallCaps p (lowerS text) = [])
    (d : Date) (h : extract_deadline_regex parse now text = some d) :
    dateLtB now d = true := by
  replace h : (match kwDeadline parse DATE_PATTERNS (lowerS text) with
      | some dd => some dd
      | none => saDeadline parse now dateOnlyPatterns (lowerS text)) = some d := h
  rw [kwDeadline_none parse DATE_PATTERNS (lowerS text) hkw] at h
  exact saDeadline_future parse now dateOnlyPatterns (lowerS text) d h

/-- Witness for C5: the bare date `15/02/2026` with `now = 2020-01-01`
matches no keyword pattern, is extracted by the standalone fallback, and
indeed lies strictly after `now`. -/
theorem c5_standalone_deadline_future_witness :
    (∀ p ∈ DATE_PATTERNS, findallCaps p (lowerS c5text) = []) ∧
    extract_deadline_regex pureParse ⟨2020, 1, 1⟩ c5text = some ⟨2026, 2, 15⟩ ∧
    dateLtB ⟨2020, 1, 1⟩ ⟨2026, 2, 15⟩ = true := by
  refine ⟨by decide, by decide, ?_⟩
  exact c5_standalone_deadline_future pureParse ⟨2020, 1, 1⟩ c5text (by decide)
    ⟨2026, 2, 15⟩ (by decide)

/-- C6: a deadline found by the keyword-anchored loop is returned by
`extract_deadline_regex` unchanged, whatever `now` is — no
future-rejection is applied on this path (the witness instantiates it at
a date four years in the past), and the value is exactly what the date
resolver produced for the phrase's date token. -/
theorem c6_keyword_deadline_kept (parse : Str → Except String (Option Date))
    (now : Date) (text : Str) (d : Date)
    (h : kwDeadline parse DATE_PATTERNS (lowerS text) = some d) :
    extract_deadline_regex parse now text = some d := by
  show (match kwDeadline parse DATE_PATTERNS (lowerS text) with
    | some dd => some dd
    | none => saDeadline parse now dateOnlyPatterns (lowerS text)) = some d
  rw [h]

/-- Witness for C6: `"Deadline: 15/02/2020"` resolves to 2020-02-15 even
with `now = 2026-01-01`, i.e. the returned deadline keeps the phrase's
calendar date although it is in the past. -/
theorem c6_keyword_deadline_kept_witness :
    kwDeadline pureParse DATE_PATTERNS (lowerS c6text) = some ⟨2020, 2, 15⟩ ∧
    extract_deadline_regex pureParse now26 c6text = some ⟨2020, 2, 15⟩ ∧
    dateLtB ⟨2020, 2, 15⟩ now26 = true := by
  refine ⟨by decide, ?_, by decide⟩
  exact c6_keyword_deadline_kept pureParse now26 c6text ⟨2020, 2, 15⟩ (by decide)

/-- C7: the assembled record's deadline is the agent-pass deadline when
that is non-null, else the step-1 pattern-extractor deadline, else null. -/
theorem c7_deadline_precedence (P : Params) (text : Str) (url : Option Str) :
    (extract_job_details P text url).deadline =
      (match (extract_job_details_ollama P text url).deadline with
       | some d => some d
       | none => extract_deadline_regex P.parse P.now text) := by
  unfold extract_job_details
  rcases hj : (extract_job_details_ollama P text url).deadline with _ | d
  · rcases hr : extract_deadline_regex P.parse P.now text with _ | d'
    · simp only [hr, hj, Option.isSome_none, Bool.false_and, if_false]
      rcases url with _ | u
      · simpa using hj
      · by_cases hu : u.isEmpty = true
        · simp only [hu, if_pos]
          simpa using hj
        · rw [Bool.not_eq_true] at hu
          simp only [hu, Bool.false_eq_true, if_false]
          simpa using hj
    · simp only [hr, hj, Option.isSome_some, Option.isSome_none, Bool.not_false, Bool.and_true]
      rcases url with _ | u
      · simp
      · by_cases hu : u.isEmpty = true
        · simp [hu]
        · rw [Bool.not_eq_true] at hu
          simp [hu]
  · simp only [hj, Option.isSome_some, Bool.not_true, Bool.and_false, if_false]
    rcases url with _ | u
    · simpa using hj
    · by_cases hu : u.isEmpty = true
      · simp only [hu, if_pos]
        simpa using hj
      · rw [Bool.not_eq_true] at hu
        simp only [hu, Bool.false_eq_true, if_false]
        simpa using hj

/-- How each field of the assembled record relates to the Ollama-pass
record, the step-1 regex deadline, and the `url` argument. -/
theorem extract_job_details_proj (P : Params) (t : Str) (url : Option Str) :
    (extract_job_details P t url).company = (extract_job_details_ollama P t url).company ∧
    (extract_job_details P t url).position = (extract_job_details_ollama P t url).position ∧
    (extract_job_details P t url).location = (extract_job_details_ollama P t url).location ∧
    (extract_job_details P t url).salary = (extract_job_details_ollama P t url).salary ∧
    (extract_job_details P t url).description = (extract_job_details_ollama P t url).description ∧
    (extract_job_details P t url).added_on = some P.now ∧
    (extract_job_details P t url).deadline =
      (match (extract_job_details_ollama P t url).deadline with
       | some d => some d
       | none => extract_deadline_regex P.parse P.now t) ∧
    (extract_job_details P t url).url =
      (match url with
       | none => (extract_job_details_ollama P t url).url
       | some u => if u.isEmpty then (extract_job_details_ollama P t url).url else some u) := by
  unfold extract_job_details
  rcases hj : extract_job_details_ollama P t url with ⟨c, p, l, s, dl, de, ur, ao⟩
  rcases hd : extract_deadline_regex P.parse P.now t with _ | dv <;>
    rcases dl with _ | dlv <;>
      rcases url with _ | u <;>
        simp [apply_ite, ite_self] <;>
          (try (by_cases hu : u = [] <;> simp [hu]))

/-- C2 counterexample: on the scenario input with no model backend, the
record claimed by the spec is not what the code produces — the position
pattern list has no rule matching `"Position: Backend Engineer. ..."`
(the candidate ends at a period, which no position terminator accepts),
the location keeps its trailing period, and the labeled salary capture
runs to the end of the sentence. -/
theorem c2_counterexample :
    ¬ ((extract_job_details c2params c2text none).company = some (("Acme Corporation").data) ∧
       (extract_job_details c2params c2text none).position = some (("Backend Engineer").data) ∧
       (extract_job_details c2params c2text none).location = some (("Dhaka").data) ∧
       (extract_job_details c2params c2text none).salary = some (("BDT 40,000 - 55,000").data) ∧
       (extract_job_details c2params c2text none).deadline = some ⟨2026, 2, 15⟩ ∧
       (extract_job_details c2params c2text none).description = none) := by
  intro h
  have hpos : (extract_job_details c2params c2text none).position = none := by rfl
  rw [hpos] at h
  cases h.2.1

/-- C2 amended: with no model backend, the scenario input yields
company `"Acme Corporation"`, position `null`, location `"Dhaka."`,
salary `"BDT 40,000 - 55,000. Deadline: 15/02/2026."`, the localized
instant for 2026-02-15 as deadline, and description `null`. -/
theorem c2_amended_record :
    extract_job_details c2params c2text none =
      { company := some (("Acme Corporation").data)
        position := none
        location := some (("Dhaka.").data)
        salary := some (("BDT 40,000 - 55,000. Deadline: 15/02/2026.").data)
        deadline := some ⟨2026, 2, 15⟩
        description := none
        url := none
        added_on := some ⟨2025, 1, 1⟩ } := by rfl

/-- C4: on the age/experience/salary input the salary pattern extractor
returns the currency-marked range, and in particular neither the age
range nor the experience range. -/
theorem c4_salary_not_age_range :
    extract_salary_regex c4text = some (("Tk. 50,000 - 70,000").data) ∧
    extract_salary_regex c4text ≠ some (("25-30").data) ∧
    extract_salary_regex c4text ≠ some (("2-3").data) := by
  have h : extract_salary_regex c4text = some (("Tk. 50,000 - 70,000").data) := by rfl
  refine ⟨h, ?_, ?_⟩ <;> rw [h] <;> decide

/-- C9 counterexample: with a reachable model backend that answers every
prompt, `extract_job_details` on the empty string does not return an
all-null record — the backend's answer is stored as the company. -/
theorem c9_counterexample :
    (extract_job_details c9params ([] : Str) none).company = some (("Acme Corp").data) := by
  rfl

/-- C9 amended: with no model backend configured, extraction on the empty
string yields a record whose six content fields are all null, whose url
is the passed-through argument and whose timestamp is the extraction
moment — for every backend stub, parser and clock. -/
theorem c9_amended (gen : Str → Except String Str) (listR : Except String Unit)
    (parse : Str → Except String (Option Date)) (now : Date) (url : Option Str) :
    (extract_job_details ⟨⟨false, listR, gen⟩, parse, now⟩ [] url).company = none ∧
    (extract_job_details ⟨⟨false, listR, gen⟩, parse, now⟩ [] url).position = none ∧
    (extract_job_details ⟨⟨false, listR, gen⟩, parse, now⟩ [] url).location = none ∧
    (extract_job_details ⟨⟨false, listR, gen⟩, parse, now⟩ [] url).salary = none ∧
    (extract_job_details ⟨⟨false, listR, gen⟩, parse, now⟩ [] url).deadline = none ∧
    (extract_job_details ⟨⟨false, listR, gen⟩, parse, now⟩ [] url).description = none ∧
    (extract_job_details ⟨⟨false, listR, gen⟩, parse, now⟩ [] url).url = url ∧
    (extract_job_details ⟨⟨false, listR, gen⟩, parse, now⟩ [] url).added_on = some now := by
  obtain ⟨hc, hp, hl, hs, hde, hao, hdl, hu⟩ :=
    extract_job_details_proj ⟨⟨false, listR, gen⟩, parse, now⟩ [] url
  have hj : extract_job_details_ollama ⟨⟨false, listR, gen⟩, parse, now⟩ [] url =
      { company := none, position := none, location := none, salary := none,
        deadline := none, description := none, url := url, added_on := none } := rfl
  refine ⟨by rw [hc, hj], by rw [hp, hj], by rw [hl, hj], by rw [hs, hj],
    ?_, by rw [hde, hj], ?_, hao⟩
  · rw [hdl, hj]
    rfl
  · rw [hu, hj]
    rcases url with _ | u
    · rfl
    · by_cases h : u.isEmpty = true
      · simp [h]
      · simp [h]

/-- C10: on the pattern-only path the company, position, location and
salary rules see only the first 5000 characters of the input, while the
step-1 deadline regex of `extract_job_details` scans the full text. -/
theorem c10_truncation_split (gen : Str → Except String Str) (listR : Except String Unit)
    (parse : Str → Except String (Option Date)) (now : Date) (t : Str) (url : Option Str) :
    (extract_job_details ⟨⟨false, listR, gen⟩, parse, now⟩ t url).company =
      extract_company_regex (t.take 5000) ∧
    (extract_job_details ⟨⟨false, listR, gen⟩, parse, now⟩ t url).position =
      extract_position_regex (t.take 5000) ∧
    (extract_job_details ⟨⟨false, listR, gen⟩, parse, now⟩ t url).location =
      extract_location_regex (t.take 5000) ∧
    (extract_job_details ⟨⟨false, listR, gen⟩, parse, now⟩ t url).salary =
      extract_salary_regex (t.take 5000) ∧
    (extract_job_details ⟨⟨false, listR, gen⟩, parse, now⟩ t url).deadline =
      extract_deadline_regex parse now t := by
  obtain ⟨hc, hp, hl, hs, _, _, hdl, _⟩ :=
    extract_job_details_proj ⟨⟨false, listR, gen⟩, parse, now⟩ t url
  have hj : extract_job_details_ollama ⟨⟨false, listR, gen⟩, parse, now⟩ t url =
      _extract_with_regex_only t url := rfl
  exact ⟨by rw [hc, hj]; rfl, by rw [hp, hj]; rfl, by rw [hl, hj]; rfl,
    by rw [hs, hj]; rfl, by rw [hdl, hj]; rfl⟩

/-! ## Capture-shape facts for the unguarded extractor branches -/

theorem exists_nonspace_of_lower_eq {t l : Str} (h : lowerS t = lowerS l)
    (hl : ∃ c ∈ l, c.toLower.isAlpha = true) : ∃ c ∈ t, isSpaceC c = false := by
  obtain ⟨c, hc, hca⟩ := hl
  have hmem : c.toLower ∈ lowerS t := by
    rw [h]; exact List.mem_map_of_mem Char.toLower hc
  obtain ⟨x, hx, hxe⟩ := List.mem_map.mp hmem
  refine ⟨x, hx, notSpace_of_toLower_alpha ?_⟩
  rw [hxe]; exact hca

theorem capInv_city : capInv hasNonSpace locCityPat := by
  refine ⟨?_, capInv_of_groupFree rfl⟩
  intro t ht
  obtain ⟨t₁, t₂, rfl, h1, _⟩ := acceptsCat ht
  obtain ⟨s, hs, hlow⟩ := acceptsCiAlt h1
  have hl : ∃ c ∈ s.data, c.toLower.isAlpha = true := by
    fin_cases hs <;> decide
  obtain ⟨c, hc, hcs⟩ := exists_nonspace_of_lower_eq hlow hl
  exact ⟨c, List.mem_append_left _ hc, hcs⟩

theorem capInv_area : capInv hasNonSpace locAreaPat := by
  refine ⟨?_, capInv_of_groupFree rfl⟩
  intro t ht
  obtain ⟨t₁, t₂, rfl, h1, _⟩ := acceptsCat ht
  obtain ⟨s, hs, hlow⟩ := acceptsCiAlt h1
  have hl : ∃ c ∈ s.data, c.toLower.isAlpha = true := by
    fin_cases hs <;> decide
  obtain ⟨c, hc, hcs⟩ := exists_nonspace_of_lower_eq hlow hl
  exact ⟨c, List.mem_append_left _ hc, hcs⟩

theorem capInv_sal4 : capInv hasDigitComma salPat4 := by
  refine ⟨capInv_of_groupFree rfl, ⟨capInv_of_groupFree rfl, ⟨capInv_of_groupFree rfl,
    ⟨?_, capInv_of_groupFree rfl⟩⟩⟩⟩
  intro t ht
  obtain ⟨t₁, t₂, rfl, h1, _⟩ := acceptsCat ht
  obtain ⟨u₁, u₂, rfl, hu1, _⟩ := acceptsCat h1
  obtain ⟨c, rfl, hc⟩ := acceptsCls hu1
  exact ⟨c, by simp, hc⟩

theorem capInv_sal5 : capInv salaryOKP salPat5 := by
  refine ⟨capInv_of_groupFree rfl, ⟨capInv_of_groupFree rfl,
    ⟨?_, capInv_of_groupFree rfl⟩⟩⟩
  intro t ht
  obtain ⟨s, hs, hlow⟩ := acceptsCiAlt ht
  fin_cases hs
  · refine Or.inr (Or.inl ?_)
    rw [hlow]
    exact List.infix_refl _
  · exact Or.inr (Or.inr (Or.inl (by rw [hlow]; decide)))
  · exact Or.inr (Or.inr (Or.inr (Or.inl (by rw [hlow]; decide))))

theorem capInv_sal6 : capInv hasDigit salPat6 := by
  refine ⟨trivial, ⟨⟨?_, capInv_of_groupFree rfl⟩, trivial⟩⟩
  intro t ht
  obtain ⟨t₁, t₂, rfl, h1, _⟩ := acceptsCat ht
  rcases acceptsAlt h1 with h2 | h2 <;>
  · obtain ⟨u₁, u₂, rfl, hu1, _⟩ := acceptsCat h2
    obtain ⟨c, rfl, hc⟩ := acceptsCls hu1
    exact ⟨c, by simp, hc⟩

/-- The `\d|negotiable` validation search of the labeled salary branch:
success forces a digit in the string or "negotiable" in its lowercase. -/
theorem dn_property {s : Str} (h : searchBool digitOrNegPat s = true) :
    salaryOKP s ∧ s ≠ [] := by
  obtain ⟨u, hu, hinf⟩ := searchBoolInfix h
  rcases acceptsAlt hu with h1 | h2
  · obtain ⟨c, rfl, hc⟩ := acceptsCls h1
    have hcm : c ∈ s := hinf.subset (List.mem_singleton.mpr rfl)
    exact ⟨Or.inl ⟨c, hcm, hc⟩, List.ne_nil_of_mem hcm⟩
  · have hlow := acceptsCiStr h2
    have hmap : lowerS u <:+: lowerS s := hinf.map Char.toLower
    rw [hlow] at hmap
    have hneg : (("negotiable").data : Str) <:+: lowerS s := by
      have he : lowerS (("negotiable").data) = (("negotiable").data : Str) := by decide
      rw [← he]; exact hmap
    refine ⟨Or.inr (Or.inl hneg), ?_⟩
    intro hs
    rw [hs] at hneg
    have : (("negotiable").data : Str) = [] := List.eq_nil_of_infix_nil hneg
    cases this

/-- The `\d` validation search: success forces a digit. -/
theorem digit_property {s : Str} (h : searchBool digitPat s = true) : hasDigit s := by
  obtain ⟨u, hu, hinf⟩ := searchBoolInfix h
  obtain ⟨c, rfl, hc⟩ := acceptsCls hu
  exact ⟨c, hinf.subset (List.mem_singleton.mpr rfl), hc⟩

/-- The `\d{2,}` validation search: success forces a digit. -/
theorem digit2_property {s : Str} (h : searchBool digit2Pat s = true) : hasDigit s := by
  obtain ⟨u, hu, hinf⟩ := searchBoolInfix h
  obtain ⟨u₁, u₂, rfl, hu1, _⟩ := acceptsCat hu
  obtain ⟨c, rfl, hc⟩ := acceptsCls hu1
  exact ⟨c, hinf.subset (by simp), hc⟩

theorem salaryOKP_ne_nil {s : Str} (h : salaryOKP s) : s ≠ [] := by
  rcases h with ⟨c, hc, _⟩ | hinf | he | he | hc
  · exact List.ne_nil_of_mem hc
  · intro hs
    rw [hs] at hinf
    have : (("negotiable").data : Str) = [] := List.eq_nil_of_infix_nil hinf
    cases this
  · intro hs; rw [hs] at he; cases he
  · intro hs; rw [hs] at he; cases he
  · exact List.ne_nil_of_mem hc

/-! ## Shape of every `extract_salary_regex` result (claims C3, C8) -/

theorem salBranch1_shape {text s : Str} (h : salBranch1 text = some s) :
    salaryOKP s ∧ s ≠ [] := by
  unfold salBranch1 at h
  rcases h1 : searchCap salPat1 text with _ | cap <;> rw [h1] at h
  · cases h
  · replace h : (if (searchBool digitOrNegPat (normWs (pyStrip cap)) &&
        decide ((normWs (pyStrip cap)).length < 150)) = true
        then some (normWs (pyStrip cap)) else none) = some s := h
    split at h
    · rename_i hcond
      injection h with hs
      rw [Bool.and_eq_true] at hcond
      rw [← hs]
      exact dn_property hcond.1
    · cases h

theorem salCurrencyFirst_shape {text s : Str} {pat : RE}
    (h : salCurrencyFirst text pat = some s) : salaryOKP s ∧ s ≠ [] := by
  unfold salCurrencyFirst at h
  rcases h1 : searchCap pat text with _ | cap <;> rw [h1] at h
  · cases h
  · replace h : (if (searchBool digitPat (normWs (pyStrip cap)) &&
        decide (3 < (normWs (pyStrip cap)).length) &&
        decide ((normWs (pyStrip cap)).length < 150)) = true
        then some (normWs (pyStrip cap)) else none) = some s := h
    split at h
    · rename_i hcond
      injection h with hs
      rw [Bool.and_eq_true, Bool.and_eq_true] at hcond
      rw [← hs]
      obtain ⟨c, hc, hcd⟩ := digit_property hcond.1.1
      exact ⟨Or.inl ⟨c, hc, hcd⟩, List.ne_nil_of_mem hc⟩
    · cases h

theorem salAmountFirst_shape {text s : Str} {pat : RE}
    (h : salAmountFirst text pat = some s) : salaryOKP s ∧ s ≠ [] := by
  unfold salAmountFirst at h
  rcases h1 : searchCap pat text with _ | cap <;> rw [h1] at h
  · cases h
  · replace h : (if (searchBool digit2Pat (normWs (pyStrip cap)) &&
        decide (3 < (normWs (pyStrip cap)).length) &&
        decide ((normWs (pyStrip cap)).length < 150)) = true
        then some (normWs (pyStrip cap)) else none) = some s := h
    split at h
    · rename_i hcond
      injection h with hs
      rw [Bool.and_eq_true, Bool.and_eq_true] at hcond
      rw [← hs]
      obtain ⟨c, hc, hcd⟩ := digit2_property hcond.1.1
      exact ⟨Or.inl ⟨c, hc, hcd⟩, List.ne_nil_of_mem hc⟩
    · cases h

theorem firstMatch_shape {f : RE → Option Str} {Q : Str → Prop}
    (hf : ∀ p s, f p = some s → Q s) :
    ∀ ps s, firstMatch f ps = some s → Q s := by
  intro ps
  induction ps with
  | nil => intro s h; cases h
  | cons p ps ih =>
    intro s h
    simp only [firstMatch] at h
    rcases hp : f p with _ | r <;> rw [hp] at h
    · exact ih s h
    · injection h with hs
      rw [← hs]
      exact hf p r hp

theorem salBranch4_shape {text s : Str} (h : salBranch4 text = some s) :
    salaryOKP s ∧ s ≠ [] := by
  unfold salBranch4 at h
  rcases h1 : searchCap salPat4 text with _ | cap <;> rw [h1] at h
  · cases h
  · replace h : (if (pyStrip cap).length < 100
        then some (normWs (pyStrip cap)) else none) = some s := h
    split at h
    · injection h with hs
      obtain ⟨c, hc, hcd⟩ := searchCapSound hasDigitComma capInv_sal4 rfl h1
      have hcs : c ∈ s := by
        rw [← hs]
        exact mem_normWs (mem_pyStrip hc (notSpace_of_digitComma hcd))
          (notSpace_of_digitComma hcd)
      refine ⟨?_, List.ne_nil_of_mem hcs⟩
      have hcd' : c.isDigit = true ∨ c = ',' := by simpa using hcd
      rcases hcd' with hd | hcm
      · exact Or.inl ⟨c, hcs, hd⟩
      · rw [hcm] at hcs
        exact Or.inr (Or.inr (Or.inr (Or.inr hcs)))
    · cases h

theorem salBranch56_shape {text s : Str} (h : salBranch56 text = some s) :
    salaryOKP s ∧ s ≠ [] := by
  unfold salBranch56 at h
  rcases h5 : searchCap salPat5 text with _ | cap5 <;> rw [h5] at h
  · rcases h6 : searchCap salPat6 text with _ | cap6 <;> rw [h6] at h
    · cases h
    · injection h with hs
      obtain ⟨c, hc, hcd⟩ := searchCapSound hasDigit capInv_sal6 rfl h6
      have hcs : c ∈ s := by
        rw [← hs]
        exact mem_normWs (mem_pyStrip hc (notSpace_of_digitComma (by rw [hcd]; rfl)))
          (notSpace_of_digitComma (by rw [hcd]; rfl))
      exact ⟨Or.inl ⟨c, hcs, hcd⟩, List.ne_nil_of_mem hcs⟩
  · injection h with hs
    rw [← hs]
    have hok := searchCapSound salaryOKP capInv_sal5 rfl h5
    exact ⟨hok, salaryOKP_ne_nil hok⟩

/-- Every non-null result of `extract_salary_regex` contains a digit, or
"negotiable" case-insensitively, or is one of the two literal fallbacks
up to letter case, or contains a comma — and is never empty. -/
theorem extract_salary_shape {text s : Str} (h : extract_salary_regex text = some s) :
    salaryOKP s ∧ s ≠ [] := by
  unfold extract_salary_regex at h
  rcases h1 : salBranch1 text with _ | r1 <;> rw [h1] at h
  · rcases h2 : firstMatch (salCurrencyFirst text) [salPat2a, salPat2b] with _ | r2 <;>
      rw [h2] at h
    · rcases h3 : firstMatch (salAmountFirst text) [salPat3a, salPat3b] with _ | r3 <;>
        rw [h3] at h
      · rcases h4 : salBranch4 text with _ | r4 <;> rw [h4] at h
        · exact salBranch56_shape h
        · injection h with hs
          rw [← hs]
          exact salBranch4_shape h4
      · injection h with hs
        rw [← hs]
        exact firstMatch_shape (fun p u hu => salAmountFirst_shape hu) _ r3 h3
    · injection h with hs
      rw [← hs]
      exact firstMatch_shape (fun p u hu => salCurrencyFirst_shape hu) _ r2 h2
  · injection h with hs
    rw [← hs]
    exact salBranch1_shape h1

/-! ## No field is ever the empty string (claim C8) -/

theorem optNE_some_of_ne {s : Str} (h : s ≠ []) : optNE (some s) = true := by
  cases s
  · cases h rfl
  · rfl

theorem firstMatch_optNE {f : RE → Option Str} (hf : ∀ p, optNE (f p) = true) :
    ∀ ps, optNE (firstMatch f ps) = true := by
  intro ps
  induction ps with
  | nil => rfl
  | cons p ps ih =>
    simp only [firstMatch]
    rcases hp : f p with _ | r
    · exact ih
    · have hv := hf p
      rw [hp] at hv
      exact hv

theorem companyFromPat_optNE (text : Str) (pat : RE) :
    optNE (companyFromPat text pat) = true := by
  unfold companyFromPat
  rcases h1 : searchCap pat text with _ | cap
  · rfl
  · show optNE (if (3 < (normWs (pyStrip cap)).length &&
        (normWs (pyStrip cap)).length < 100 &&
        !(lowerS (normWs (pyStrip cap)) = ("job").data ||
          lowerS (normWs (pyStrip cap)) = ("position").data ||
          lowerS (normWs (pyStrip cap)) = ("role").data) : Bool) = true
        then some (normWs (pyStrip cap)) else none) = true
    split
    · rename_i hcond
      have h3 : 3 < (normWs (pyStrip cap)).length := by
        simp only [Bool.and_eq_true, decide_eq_true_eq] at hcond
        tauto
      apply optNE_some_of_ne
      intro he
      rw [he] at h3
      exact absurd h3 (by decide)
    · rfl

theorem extract_company_regex_optNE (text : Str) :
    optNE (extract_company_regex text) = true :=
  firstMatch_optNE (companyFromPat_optNE text) companyPatterns

theorem positionFromPat_optNE (text : Str) (pat : RE) :
    optNE (positionFromPat text pat) = true := by
  unfold positionFromPat
  rcases h1 : searchCap pat text with _ | cap
  · rfl
  · show optNE (if (3 < (normWs (pyStrip cap)).length &&
        (normWs (pyStrip cap)).length < 150 : Bool) = true
        then some (normWs (pyStrip cap)) else none) = true
    split
    · rename_i hcond
      have h3 : 3 < (normWs (pyStrip cap)).length := by
        simp only [Bool.and_eq_true, decide_eq_true_eq] at hcond
        tauto
      apply optNE_some_of_ne
      intro he
      rw [he] at h3
      exact absurd h3 (by decide)
    · rfl

theorem extract_position_regex_optNE (text : Str) :
    optNE (extract_position_regex text) = true :=
  firstMatch_optNE (positionFromPat_optNE text) positionPatterns

theorem locationFromLabeled_optNE (text : Str) (pat : RE) :
    optNE (locationFromLabeled text pat) = true := by
  unfold locationFromLabeled
  rcases h1 : searchCap pat text with _ | cap
  · rfl
  · show optNE (if (3 < (deleteFromMatch fieldTailPat (deleteFromMatch pipeTailPat
          (normWs (pyStrip cap)))).length &&
        (deleteFromMatch fieldTailPat (deleteFromMatch pipeTailPat
          (normWs (pyStrip cap)))).length < 200 : Bool) = true
        then some (deleteFromMatch fieldTailPat (deleteFromMatch pipeTailPat
          (normWs (pyStrip cap)))) else none) = true
    split
    · rename_i hcond
      have h3 : 3 < (deleteFromMatch fieldTailPat (deleteFromMatch pipeTailPat
          (normWs (pyStrip cap)))).length := by
        simp only [Bool.and_eq_true, decide_eq_true_eq] at hcond
        tauto
      apply optNE_some_of_ne
      intro he
      rw [he] at h3
      exact absurd h3 (by decide)
    · rfl

theorem locContext_optNE (text : Str) : optNE (locContext text) = true := by
  unfold locContext
  rcases h1 : searchCap locCtxPat text with _ | cap
  · rfl
  · show optNE (if (3 < (stripLeadPrep (normWs (pyStrip cap))).length &&
        (stripLeadPrep (normWs (pyStrip cap))).length < 200 : Bool) = true
        then some (stripLeadPrep (normWs (pyStrip cap))) else none) = true
    split
    · rename_i hcond
      have h3 : 3 < (stripLeadPrep (normWs (pyStrip cap))).length := by
        simp only [Bool.and_eq_true, decide_eq_true_eq] at hcond
        tauto
      apply optNE_some_of_ne
      intro he
      rw [he] at h3
      exact absurd h3 (by decide)
    · rfl

theorem locCityAreaRemote_optNE (text : Str) :
    optNE (locCityAreaRemote text) = true := by
  unfold locCityAreaRemote
  rcases h3 : searchCap locCityPat text with _ | cap3
  · rcases h4 : searchCap locAreaPat text with _ | cap4
    · by_cases h5 : searchBool locRemotePat text = true
      · simp only [h5, if_true]
        rfl
      · rw [Bool.not_eq_true] at h5
        simp only [h5, Bool.false_eq_true, if_false]
        rfl
    · obtain ⟨c, hc, hcs⟩ := searchCapSound hasNonSpace capInv_area rfl h4
      exact optNE_some_of_ne (pyStrip_ne_nil hc hcs)
  · obtain ⟨c, hc, hcs⟩ := searchCapSound hasNonSpace capInv_city rfl h3
    exact optNE_some_of_ne (pyStrip_ne_nil hc hcs)

theorem extract_location_regex_optNE (text : Str) :
    optNE (extract_location_regex text) = true := by
  unfold extract_location_regex
  rcases h1 : firstMatch (locationFromLabeled text) [locPat1, locPat2] with _ | l
  · rcases h2 : locContext text with _ | l2
    · exact locCityAreaRemote_optNE text
    · have hv := locContext_optNE text
      rw [h2] at hv
      exact hv
  · have hv := firstMatch_optNE (locationFromLabeled_optNE text) [locPat1, locPat2]
    rw [h1] at hv
    exact hv

theorem extract_salary_regex_optNE (text : Str) :
    optNE (extract_salary_regex text) = true := by
  rcases h : extract_salary_regex text with _ | s
  · rfl
  · exact optNE_some_of_ne (extract_salary_shape h).2

theorem agentClean_optNE (n : Nat) (resp : Str) : optNE (agentClean n resp) = true := by
  unfold agentClean
  show optNE (if (lowerS (pyStrip resp) = ("null").data || (pyStrip resp).isEmpty ||
      n < (pyStrip resp).length : Bool) = true
      then none else some (pyStrip resp)) = true
  split
  · rfl
  · rename_i hcond
    apply optNE_some_of_ne
    intro he
    apply hcond
    rw [he]
    simp

theorem descClean_optNE (resp : Str) : optNE (descClean resp) = true := by
  unfold descClean
  show optNE (if (lowerS (pyStrip resp) = ("null").data || (pyStrip resp).isEmpty ||
      250 < (pyStrip resp).length : Bool) = true
      then none
      else if 200 < (pyStrip resp).length
        then some ((pyStrip resp).take 197 ++ ("...").data)
        else some (pyStrip resp)) = true
  split
  · rfl
  · rename_i hcond
    split
    · apply optNE_some_of_ne
      simp
    · apply optNE_some_of_ne
      intro he
      apply hcond
      rw [he]
      simp

theorem _extract_company_optNE (g : Str → Except String Str) (t : Str) :
    optNE (_extract_company g t) = true := by
  unfold _extract_company
  rcases g (companyPrompt t) with e | resp
  · rfl
  · exact agentClean_optNE 100 resp

theorem _extract_position_optNE (g : Str → Except String Str) (t : Str) :
    optNE (_extract_position g t) = true := by
  unfold _extract_position
  rcases g (positionPrompt t) with e | resp
  · rfl
  · exact agentClean_optNE 150 resp

theorem _extract_location_optNE (g : Str → Except String Str) (t : Str) :
    optNE (_extract_location g t) = true := by
  unfold _extract_location
  rcases g (locationPrompt t) with e | resp
  · rfl
  · exact agentClean_optNE 200 resp

theorem _extract_salary_optNE (g : Str → Except String Str) (t : Str) :
    optNE (_extract_salary g t) = true := by
  unfold _extract_salary
  rcases g (salaryPrompt t) with e | resp
  · rfl
  · exact agentClean_optNE 100 resp

theorem _extract_description_optNE (g : Str → Except String Str) (t : Str) :
    optNE (_extract_description g t) = true := by
  unfold _extract_description
  rcases g (descriptionPrompt t) with e | resp
  · rfl
  · exact descClean_optNE resp

theorem orFalsy_optNE {a b : Option Str} (hb : optNE b = true) :
    optNE (orFalsy a b) = true := by
  unfold orFalsy
  rcases a with _ | s
  · exact hb
  · by_cases hse : s.isEmpty = true
    · simp only [hse, if_true]
      exact hb
    · rw [Bool.not_eq_true] at hse
      simp only [hse, Bool.false_eq_true, if_false]
      simp only [optNE, hse, Bool.not_false]

theorem _extract_with_regex_only_optNE (t : Str) (url : Option Str) :
    optNE (_extract_with_regex_only t url).company = true ∧
    optNE (_extract_with_regex_only t url).position = true ∧
    optNE (_extract_with_regex_only t url).location = true ∧
    optNE (_extract_with_regex_only t url).salary = true ∧
    optNE (_extract_with_regex_only t url).description = true :=
  ⟨extract_company_regex_optNE _, extract_position_regex_optNE _,
   extract_location_regex_optNE _, extract_salary_regex_optNE _, rfl⟩

theorem extract_job_details_ollama_optNE (P : Params) (t : Str) (url : Option Str) :
    optNE (extract_job_details_ollama P t url).company = true ∧
    optNE (extract_job_details_ollama P t url).position = true ∧
    optNE (extract_job_details_ollama P t url).location = true ∧
    optNE (extract_job_details_ollama P t url).salary = true ∧
    optNE (extract_job_details_ollama P t url).description = true := by
  unfold extract_job_details_ollama
  cases hav : P.ollama.available
  · exact _extract_with_regex_only_optNE t url
  · simp only [Bool.not_true, Bool.false_eq_true, if_false]
    rcases hl : P.ollama.listOk with e | u
    · exact _extract_with_regex_only_optNE t url
    · exact ⟨orFalsy_optNE (extract_company_regex_optNE _),
        orFalsy_optNE (extract_position_regex_optNE _),
        orFalsy_optNE (extract_location_regex_optNE _),
        orFalsy_optNE (extract_salary_regex_optNE _),
        _extract_description_optNE _ _⟩

/-- C8: in every record `extract_job_details` returns — for any backend
behaviour, parser behaviour, clock, input and url — each of the five
string-valued fields is either null or a non-empty string; no step of
the pipeline ever stores an empty string. -/
theorem c8_no_empty_string_fields (P : Params) (t : Str) (url : Option Str) :
    (optNE (extract_job_details P t url).company &&
     optNE (extract_job_details P t url).position &&
     optNE (extract_job_details P t url).location &&
     optNE (extract_job_details P t url).salary &&
     optNE (extract_job_details P t url).description) = true := by
  obtain ⟨hc, hp, hl, hs, hde, _, _, _⟩ := extract_job_details_proj P t url
  obtain ⟨oc, op, ol, os, ode⟩ := extract_job_details_ollama_optNE P t url
  rw [hc, hp, hl, hs, hde, oc, op, ol, os, ode]
  rfl

/-! ## The salary-shape claim (C3) -/

/-- C3 counterexample: on `"Salary: Competitive"` the salary extractor
returns `"Competitive"` (via the `negotiable_match` branch), which
contains neither a decimal digit nor the word "negotiable" in any
letter case. -/
theorem c3_counterexample :
    extract_salary_regex c3text = some (("Competitive").data) ∧
    ¬ ((∃ c ∈ (("Competitive").data : Str), c.isDigit = true) ∨
       (("negotiable").data : Str) <:+: lowerS (("Competitive").data)) :=
  ⟨by rfl, by decide⟩

/-- C3 amended: every non-null string returned by `extract_salary_regex`
contains a decimal digit, or the word "negotiable" case-insensitively,
or is — up to letter case — one of the two other literal fallbacks
`"As per company policy"` / `"Competitive"` of the negotiable branch, or
contains a comma (the contextual branch only guarantees a digit or a
comma). -/
theorem c3_salary_result_shape (text s : Str)
    (h : extract_salary_regex text = some s) : salaryOKP s :=
  (extract_salary_shape h).1

/-- Witness for C3: the fallback literal input exercises the theorem at
a concrete extraction. -/
theorem c3_salary_result_shape_witness :
    extract_salary_regex c3text = some (("Competitive").data) ∧
    salaryOKP (("Competitive").data) :=
  ⟨by rfl, c3_salary_result_shape c3text (("Competitive").data) (by rfl)⟩
